import Mathlib

/-!
The log printer's event loop (`api/compose/printer.go`)

A shallow embedding of `printer.Run`: the loop that drains the event queue,
keeps the set of attached containers, forwards registrations, statuses and
log lines to the `LogConsumer`, triggers the cascade stop and computes the
exit code of the whole run.

* The queue is the list of events in the order the loop receives them.  When
  the list runs out the loop is blocked on the channel: `Run` has not returned.
* The calls on the consumer, the call of `stopFn`, `fmt.Println` and
  `logrus.Error` are recorded, in order, as a list of `Effect`s.
* `stopFn` is a Go closure; here it is the function that gives, for the
  number of earlier invocations, what the next invocation returns
  (`none` is a nil error).
-/

namespace Compose

/-- Modelled from the spec: the event kinds of `ContainerEvent.Type`, whose
declaration is not part of `printer.go`; the four kinds the spec lists are the
four cases of the `switch` in `Run`. -/
inductive EventType where
  | ContainerEventLog
  | ContainerEventAttach
  | ContainerEventExit
  | UserCancel
  deriving DecidableEq, Repr

/-- Modelled from the spec: the `ContainerEvent` struct, whose declaration is
not part of `printer.go`; these are the fields `Run` reads. -/
structure ContainerEvent where
  Type_ : EventType
  Container : String
  Service : String
  Line : String
  ExitCode : Int
  Restarting : Bool
  deriving DecidableEq, Repr

/-- A Go `error` value that is not nil. -/
abbrev GoError := String

/-- What `Run` does to the outside, one constructor per call site. -/
inductive Effect where
  | Register (container : String)
  | Status (container : String) (msg : String)
  | Log (container : String) (service : String) (line : String)
  | Println (msg : String)
  | StopFn
  | LogrusError (code : Int)
  deriving DecidableEq, Repr

/-- The local variables of `Run`, with the number of `stopFn` invocations made
so far. -/
structure State where
  containers : Finset String
  aborting : Bool
  exitCodeFrom : String
  exitCode : Int
  stopCalls : Nat
  deriving DecidableEq

/-- One iteration of the `for` loop: the variables after it, what it did, and
the values of the `return` statement it reached, if any. -/
structure Outcome where
  state : State
  effects : List Effect
  ret : Option (Int × Option GoError)
  deriving DecidableEq

/-- The text of `fmt.Sprintf("exited with code %d", event.ExitCode)`. -/
def statusText (code : Int) : String :=
  "exited with code " ++ toString code

/-- The `case ContainerEventExit:` branch of the `switch`. -/
def stepExit (cascadeStop : Bool) (stopFn : Nat → Option GoError) (s : State)
    (event : ContainerEvent) : Outcome :=
  let containers :=
    if !event.Restarting then s.containers.erase event.Container else s.containers
  let status : List Effect :=
    if !s.aborting then [Effect.Status event.Container (statusText event.ExitCode)] else []
  if cascadeStop then
    let continueWith (aborting : Bool) (stopCalls : Nat) (effects : List Effect) : Outcome :=
      let exitCodeFrom := if s.exitCodeFrom == "" then event.Service else s.exitCodeFrom
      let matched : Bool := exitCodeFrom == event.Service
      let exitCode := if matched then event.ExitCode else s.exitCode
      let effects := if matched then effects ++ [Effect.LogrusError event.ExitCode] else effects
      let s1 : State := ⟨containers, aborting, exitCodeFrom, exitCode, stopCalls⟩
      if containers.card == 0 then ⟨s1, effects, some (exitCode, none)⟩
      else ⟨s1, effects, none⟩
    if !s.aborting then
      let effects := status ++ [Effect.Println "Aborting on container exit...", Effect.StopFn]
      match stopFn s.stopCalls with
      | some err =>
        ⟨⟨containers, true, s.exitCodeFrom, s.exitCode, s.stopCalls + 1⟩, effects, some (0, some err)⟩
      | none => continueWith true (s.stopCalls + 1) effects
    else continueWith s.aborting s.stopCalls status
  else
    let s1 : State := ⟨containers, s.aborting, s.exitCodeFrom, s.exitCode, s.stopCalls⟩
    if containers.card == 0 then ⟨s1, status, some (s.exitCode, none)⟩
    else ⟨s1, status, none⟩

/-- The body of the `for` loop of `Run` for one received event. -/
def step (cascadeStop : Bool) (stopFn : Nat → Option GoError) (s : State)
    (event : ContainerEvent) : Outcome :=
  match event.Type_ with
  | EventType.UserCancel => ⟨{ s with aborting := true }, [], none⟩
  | EventType.ContainerEventAttach =>
    if event.Container ∈ s.containers then ⟨s, [], none⟩
    else ⟨{ s with containers := insert event.Container s.containers },
          [Effect.Register event.Container], none⟩
  | EventType.ContainerEventExit => stepExit cascadeStop stopFn s event
  | EventType.ContainerEventLog =>
    if !s.aborting then ⟨s, [Effect.Log event.Container event.Service event.Line], none⟩
    else ⟨s, [], none⟩

/-- The `for` loop of `Run` from the variables `s`, on the events the queue
delivers, in order.  `ret = none`: every event was processed and the loop is
waiting for the next one. -/
def runLoop (cascadeStop : Bool) (stopFn : Nat → Option GoError) :
    State → List ContainerEvent → Outcome
  | s, [] => ⟨s, [], none⟩
  | s, event :: rest =>
    let o := step cascadeStop stopFn s event
    match o.ret with
    | some r => ⟨o.state, o.effects, some r⟩
    | none =>
      let o1 := runLoop cascadeStop stopFn o.state rest
      ⟨o1.state, o.effects ++ o1.effects, o1.ret⟩

/-- The variables of `Run` when the loop is entered. -/
def initState (exitCodeFrom : String) : State :=
  ⟨∅, false, exitCodeFrom, 0, 0⟩

/-- `printer.Run(cascadeStop, exitCodeFrom, stopFn)` on the events the queue
delivers. -/
def Run (cascadeStop : Bool) (exitCodeFrom : String) (stopFn : Nat → Option GoError)
    (events : List ContainerEvent) : Outcome :=
  runLoop cascadeStop stopFn (initState exitCodeFrom) events

/-- An Attach event, as the producers build it. -/
def attachEvent (container service : String) : ContainerEvent :=
  ⟨EventType.ContainerEventAttach, container, service, "", 0, false⟩

/-- An Exit event. -/
def exitEvent (container service : String) (code : Int) (restarting : Bool) : ContainerEvent :=
  ⟨EventType.ContainerEventExit, container, service, "", code, restarting⟩

/-- A Log event. -/
def logEvent (container service line : String) : ContainerEvent :=
  ⟨EventType.ContainerEventLog, container, service, line, 0, false⟩

/-- The event `Cancel` sends: only `Type` is set. -/
def cancelEvent : ContainerEvent :=
  ⟨EventType.UserCancel, "", "", "", 0, false⟩

/-- The events `runLoop` takes from the queue: the events up to and including
the one at which it returns, all of them when it does not return. -/
def processed (cascadeStop : Bool) (stopFn : Nat → Option GoError) :
    State → List ContainerEvent → List ContainerEvent
  | _, [] => []
  | s, event :: rest =>
    match (step cascadeStop stopFn s event).ret with
    | some _ => [event]
    | none => event :: processed cascadeStop stopFn (step cascadeStop stopFn s event).state rest

/-- Is `event` an Exit event of the group `g`? -/
def isExitOf (g : String) (event : ContainerEvent) : Bool :=
  event.Type_ == EventType.ContainerEventExit && event.Service == g

/-- The `ExitCode` of the last Exit event of `events` whose `Service` is `g`. -/
def lastExitCodeOf (g : String) (events : List ContainerEvent) : Option Int :=
  ((events.filter (isExitOf g)).getLast?).map (fun e => e.ExitCode)

/-- The `Service` of the first Exit event of `events`. -/
def firstExitService (events : List ContainerEvent) : Option String :=
  (events.find? (fun e => e.Type_ == EventType.ContainerEventExit)).map (fun e => e.Service)

/-- The registered set after the removal step of an Exit event. -/
def afterRemoval (s : State) (event : ContainerEvent) : Finset String :=
  if !event.Restarting then s.containers.erase event.Container else s.containers

/-- Is the effect a `Status` or a `Log` call on the consumer? -/
def Effect.isStatusOrLog : Effect → Bool
  | Effect.Status _ _ => true
  | Effect.Log _ _ _ => true
  | _ => false

/-- The exit-code source after an Exit event with cascade stop. -/
def sourceAfter (s : State) (e : ContainerEvent) : String :=
  if s.exitCodeFrom == "" then e.Service else s.exitCodeFrom

/-- The exit code after an Exit event with cascade stop. -/
def codeAfter (s : State) (e : ContainerEvent) : Int :=
  if sourceAfter s e == e.Service then e.ExitCode else s.exitCode

/-- The scenario of two containers: `A` of group `web` exits with code 2, then
`B` of group `db` exits with code 0. -/
def webThenDb : List ContainerEvent :=
  [attachEvent "A" "web", attachEvent "B" "db", exitEvent "A" "web" 2 false,
    exitEvent "B" "db" 0 false]

/-- A run in which the first container to exit has an empty group name. -/
def emptyGroupFirst : List ContainerEvent :=
  [attachEvent "A" "", attachEvent "B" "db", exitEvent "A" "" 2 false,
    exitEvent "B" "db" 5 false]

/-- A run with the source `db` chosen beforehand: `B` restarts with code 7 and
then exits with code 3, between two exits of group `web`. -/
def dbPreselected : List ContainerEvent :=
  [attachEvent "A" "web", attachEvent "B" "db", attachEvent "C" "web",
    exitEvent "A" "web" 2 false, exitEvent "B" "db" 7 true, exitEvent "B" "db" 3 false,
    exitEvent "C" "web" 9 false]

/-- A run in which an Exit event arrives before any Attach event. -/
def exitBeforeAttach : List ContainerEvent :=
  [exitEvent "A" "web" 0 false]

/-- A run in which the first of two attached containers exits. -/
def firstOfTwoExits : List ContainerEvent :=
  [attachEvent "A" "web", attachEvent "B" "db", exitEvent "A" "web" 2 false]

/-- While the loop is not aborting, `stopFn` has not been called. -/
def stopFnFresh (s : State) : Prop :=
  s.aborting = false → s.stopCalls = 0

/-- A run in which `A` exits while `B` is still registered and is attached
again. -/
def reattachAfterExit : List ContainerEvent :=
  [attachEvent "A" "web", attachEvent "B" "db", exitEvent "A" "web" 0 false,
    attachEvent "A" "web"]

/-- A run in which `A` is attached three times with a log line and a
restarting exit in between. -/
def attachThrice : List ContainerEvent :=
  [attachEvent "A" "web", logEvent "A" "web" "hello", attachEvent "A" "web",
    exitEvent "A" "web" 1 true, attachEvent "A" "web"]

/-- The variables when `A` and `B` are registered and nothing else happened. -/
def twoRegistered : State :=
  ⟨{"A", "B"}, false, "", 0, 0⟩

/-- Is the effect a `Log` call on the consumer? -/
def Effect.isLog : Effect → Bool
  | Effect.Log _ _ _ => true
  | _ => false

/-- Is the effect a `Status` call on the consumer? -/
def Effect.isStatus : Effect → Bool
  | Effect.Status _ _ => true
  | _ => false

/-- The calls on the consumer as the specification words them, for the events
`events` received with the containers `reg` registered: `Register` for an
Attach event of a container not then registered (which adds it), nothing for
an Attach event of a registered one, `Log` for a Log event, and
`Status(unit, "exited with code N")` for an Exit event (which removes the
container unless it is restarting). -/
def specSinkCalls : Finset String → List ContainerEvent → List Effect
  | _, [] => []
  | reg, e :: rest =>
    match e.Type_ with
    | EventType.ContainerEventAttach =>
      if e.Container ∈ reg then specSinkCalls reg rest
      else Effect.Register e.Container :: specSinkCalls (insert e.Container reg) rest
    | EventType.ContainerEventLog =>
      Effect.Log e.Container e.Service e.Line :: specSinkCalls reg rest
    | EventType.ContainerEventExit =>
      Effect.Status e.Container ("exited with code " ++ toString e.ExitCode) ::
        specSinkCalls (if e.Restarting then reg else reg.erase e.Container) rest
    | EventType.UserCancel => specSinkCalls reg rest

/-- The scenario of one container: `A` of group `web` logs a line and exits
with code 0. -/
def helloThenExit : List ContainerEvent :=
  [attachEvent "A" "web", logEvent "A" "web" "hello", exitEvent "A" "web" 0 false]

/-- The variables when `A` is registered and nothing else happened. -/
def oneRegistered : State :=
  ⟨{"A"}, false, "", 0, 0⟩

/-- Is `event` an Exit event of the container `u` that is not restarting? -/
def isFinalExitOf (u : String) (event : ContainerEvent) : Bool :=
  event.Type_ == EventType.ContainerEventExit && event.Container == u && !event.Restarting

/-- A run in which `A` exits while `B` is still registered and is then attached
twice. -/
def attachAgainTwice : List ContainerEvent :=
  [attachEvent "A" "web", attachEvent "B" "db", exitEvent "A" "web" 0 false,
    attachEvent "A" "web", attachEvent "A" "web"]

/-! ## One iteration, by kind of event -/

theorem step_cancel (c : Bool) (f : Nat → Option GoError) (s : State) (e : ContainerEvent)
    (h : e.Type_ = EventType.UserCancel) :
    step c f s e = ⟨{ s with aborting := true }, [], none⟩ := by
  simp [step, h]

theorem step_attach_mem (c : Bool) (f : Nat → Option GoError) (s : State) (e : ContainerEvent)
    (h : e.Type_ = EventType.ContainerEventAttach) (hm : e.Container ∈ s.containers) :
    step c f s e = ⟨s, [], none⟩ := by
  simp [step, h, hm]

theorem step_attach_not_mem (c : Bool) (f : Nat → Option GoError) (s : State)
    (e : ContainerEvent) (h : e.Type_ = EventType.ContainerEventAttach)
    (hm : e.Container ∉ s.containers) :
    step c f s e = ⟨{ s with containers := insert e.Container s.containers },
      [Effect.Register e.Container], none⟩ := by
  simp [step, h, hm]

theorem step_log (c : Bool) (f : Nat → Option GoError) (s : State) (e : ContainerEvent)
    (h : e.Type_ = EventType.ContainerEventLog) :
    step c f s e =
      ⟨s, if s.aborting then [] else [Effect.Log e.Container e.Service e.Line], none⟩ := by
  cases ha : s.aborting <;> simp [step, h, ha]

theorem step_exit (c : Bool) (f : Nat → Option GoError) (s : State) (e : ContainerEvent)
    (h : e.Type_ = EventType.ContainerEventExit) :
    step c f s e = stepExit c f s e := by
  simp [step, h]

/-- An Exit event without cascade stop. -/
theorem stepExit_plain (f : Nat → Option GoError) (s : State) (e : ContainerEvent) :
    stepExit false f s e =
      ⟨⟨afterRemoval s e, s.aborting, s.exitCodeFrom, s.exitCode, s.stopCalls⟩,
        if s.aborting then [] else [Effect.Status e.Container (statusText e.ExitCode)],
        if afterRemoval s e = ∅ then some (s.exitCode, none) else none⟩ := by
  cases ha : s.aborting <;> by_cases hc : afterRemoval s e = ∅ <;>
    simp_all [stepExit, afterRemoval]

/-- An Exit event with cascade stop whose `stopFn` call, if any, fails. -/
theorem stepExit_fail (f : Nat → Option GoError) (s : State) (e : ContainerEvent)
    (err : GoError) (ha : s.aborting = false) (hf : f s.stopCalls = some err) :
    stepExit true f s e =
      ⟨⟨afterRemoval s e, true, s.exitCodeFrom, s.exitCode, s.stopCalls + 1⟩,
        [Effect.Status e.Container (statusText e.ExitCode),
          Effect.Println "Aborting on container exit...", Effect.StopFn],
        some (0, some err)⟩ := by
  simp [stepExit, afterRemoval, ha, hf]

/-- An Exit event with cascade stop, the loop not aborting, `stopFn` succeeding. -/
theorem stepExit_trigger (f : Nat → Option GoError) (s : State) (e : ContainerEvent)
    (ha : s.aborting = false) (hf : f s.stopCalls = none) :
    stepExit true f s e =
      ⟨⟨afterRemoval s e, true, sourceAfter s e, codeAfter s e, s.stopCalls + 1⟩,
        [Effect.Status e.Container (statusText e.ExitCode),
          Effect.Println "Aborting on container exit...", Effect.StopFn] ++
          (if sourceAfter s e == e.Service then [Effect.LogrusError e.ExitCode] else []),
        if afterRemoval s e = ∅ then some (codeAfter s e, none) else none⟩ := by
  by_cases hc : afterRemoval s e = ∅ <;> by_cases hm : sourceAfter s e = e.Service <;>
    simp_all [stepExit, afterRemoval, sourceAfter, codeAfter] <;>
    split_ifs <;> simp_all

/-- An Exit event with cascade stop when the loop is already aborting. -/
theorem stepExit_aborting (f : Nat → Option GoError) (s : State) (e : ContainerEvent)
    (ha : s.aborting = true) :
    stepExit true f s e =
      ⟨⟨afterRemoval s e, true, sourceAfter s e, codeAfter s e, s.stopCalls⟩,
        if sourceAfter s e == e.Service then [Effect.LogrusError e.ExitCode] else [],
        if afterRemoval s e = ∅ then some (codeAfter s e, none) else none⟩ := by
  by_cases hc : afterRemoval s e = ∅ <;> by_cases hm : sourceAfter s e = e.Service <;>
    simp_all [stepExit, afterRemoval, sourceAfter, codeAfter]

/-! ## The loop -/

theorem runLoop_cons_ret (c : Bool) (f : Nat → Option GoError) (s : State) (e : ContainerEvent)
    (rest : List ContainerEvent) (r : Int × Option GoError) (h : (step c f s e).ret = some r) :
    runLoop c f s (e :: rest) = ⟨(step c f s e).state, (step c f s e).effects, some r⟩ := by
  simp [runLoop, h]

theorem runLoop_cons_none (c : Bool) (f : Nat → Option GoError) (s : State) (e : ContainerEvent)
    (rest : List ContainerEvent) (h : (step c f s e).ret = none) :
    runLoop c f s (e :: rest) =
      ⟨(runLoop c f (step c f s e).state rest).state,
        (step c f s e).effects ++ (runLoop c f (step c f s e).state rest).effects,
        (runLoop c f (step c f s e).state rest).ret⟩ := by
  simp [runLoop, h]

theorem processed_cons_ret (c : Bool) (f : Nat → Option GoError) (s : State) (e : ContainerEvent)
    (rest : List ContainerEvent) (r : Int × Option GoError) (h : (step c f s e).ret = some r) :
    processed c f s (e :: rest) = [e] := by
  simp [processed, h]

theorem processed_cons_none (c : Bool) (f : Nat → Option GoError) (s : State) (e : ContainerEvent)
    (rest : List ContainerEvent) (h : (step c f s e).ret = none) :
    processed c f s (e :: rest) = e :: processed c f (step c f s e).state rest := by
  simp [processed, h]

/-- Events after the one at which the loop returns are not processed. -/
theorem runLoop_append_of_ret (c : Bool) (f : Nat → Option GoError) :
    ∀ (xs ys : List ContainerEvent) (s : State) (r : Int × Option GoError),
      (runLoop c f s xs).ret = some r → runLoop c f s (xs ++ ys) = runLoop c f s xs := by
  intro xs
  induction xs with
  | nil => intro ys s r h; simp [runLoop] at h
  | cons e rest ih =>
    intro ys s r h
    cases hr : (step c f s e).ret with
    | some r1 =>
      rw [List.cons_append, runLoop_cons_ret c f s e _ r1 hr, runLoop_cons_ret c f s e _ r1 hr]
    | none =>
      rw [runLoop_cons_none c f s e _ hr] at h
      rw [List.cons_append, runLoop_cons_none c f s e _ hr, runLoop_cons_none c f s e _ hr,
        ih ys _ r h]

/-- The loop does the same on the events it takes from the queue. -/
theorem runLoop_processed (c : Bool) (f : Nat → Option GoError) :
    ∀ (events : List ContainerEvent) (s : State),
      runLoop c f s (processed c f s events) = runLoop c f s events := by
  intro events
  induction events with
  | nil => intro s; rfl
  | cons e rest ih =>
    intro s
    cases hr : (step c f s e).ret with
    | some r1 =>
      rw [processed_cons_ret c f s e _ r1 hr, runLoop_cons_ret c f s e _ r1 hr,
        runLoop_cons_ret c f s e _ r1 hr]
    | none =>
      rw [processed_cons_none c f s e _ hr, runLoop_cons_none c f s e _ hr,
        runLoop_cons_none c f s e _ hr, ih]

/-! ## The exit code -/

/-- The source and the code after one iteration with cascade stop, `stopFn`
succeeding. -/
theorem step_cascade_code (f : Nat → Option GoError) (hf : ∀ n, f n = none) (s : State)
    (e : ContainerEvent) :
    (step true f s e).state.exitCodeFrom =
        (if e.Type_ = EventType.ContainerEventExit then sourceAfter s e else s.exitCodeFrom) ∧
      (step true f s e).state.exitCode =
        (if e.Type_ = EventType.ContainerEventExit then codeAfter s e else s.exitCode) := by
  cases ht : e.Type_ with
  | UserCancel => simp [step_cancel true f s e ht]
  | ContainerEventAttach =>
    by_cases hm : e.Container ∈ s.containers
    · simp [step_attach_mem true f s e ht hm]
    · simp [step_attach_not_mem true f s e ht hm]
  | ContainerEventLog => simp [step_log true f s e ht]
  | ContainerEventExit =>
    rw [step_exit true f s e ht]
    cases ha : s.aborting with
    | false => simp [stepExit_trigger f s e ha (hf _)]
    | true => simp [stepExit_aborting f s e ha]

/-- When `stopFn` does not fail, an iteration that returns, returns the
accumulated exit code and a nil error. -/
theorem step_ret_code (c : Bool) (f : Nat → Option GoError) (hf : ∀ n, f n = none) (s : State)
    (e : ContainerEvent) (rv : Int × Option GoError) (h : (step c f s e).ret = some rv) :
    rv = ((step c f s e).state.exitCode, none) := by
  cases ht : e.Type_ with
  | UserCancel => simp [step_cancel c f s e ht] at h
  | ContainerEventAttach =>
    by_cases hm : e.Container ∈ s.containers
    · simp [step_attach_mem c f s e ht hm] at h
    · simp [step_attach_not_mem c f s e ht hm] at h
  | ContainerEventLog => simp [step_log c f s e ht] at h
  | ContainerEventExit =>
    rw [step_exit c f s e ht] at h ⊢
    cases c with
    | false =>
      rw [stepExit_plain] at h ⊢
      by_cases hc : afterRemoval s e = ∅ <;> simp_all
    | true =>
      cases ha : s.aborting with
      | false =>
        rw [stepExit_trigger f s e ha (hf _)] at h ⊢
        by_cases hc : afterRemoval s e = ∅ <;> simp_all
      | true =>
        rw [stepExit_aborting f s e ha] at h ⊢
        by_cases hc : afterRemoval s e = ∅ <;> simp_all

theorem runLoop_ret_code (c : Bool) (f : Nat → Option GoError) (hf : ∀ n, f n = none) :
    ∀ (events : List ContainerEvent) (s : State) (rv : Int × Option GoError),
      (runLoop c f s events).ret = some rv → rv = ((runLoop c f s events).state.exitCode, none) := by
  intro events
  induction events with
  | nil => intro s rv h; simp [runLoop] at h
  | cons e rest ih =>
    intro s rv h
    cases hr : (step c f s e).ret with
    | some r1 =>
      rw [runLoop_cons_ret c f s e _ r1 hr] at h ⊢
      simp only [Option.some.injEq] at h
      subst h
      exact step_ret_code c f hf s e _ hr
    | none =>
      rw [runLoop_cons_none c f s e _ hr] at h ⊢
      exact ih _ _ h

theorem lastExitCodeOf_cons_pos (g : String) (e : ContainerEvent) (rest : List ContainerEvent)
    (h : isExitOf g e = true) :
    lastExitCodeOf g (e :: rest) = some ((lastExitCodeOf g rest).getD e.ExitCode) := by
  unfold lastExitCodeOf
  rw [List.filter_cons_of_pos h]
  cases hl : (List.filter (isExitOf g) rest).getLast? with
  | none =>
    have : List.filter (isExitOf g) rest = [] := by simpa using hl
    simp [this]
  | some x =>
    rw [List.getLast?_cons, hl]
    simp

theorem lastExitCodeOf_cons_neg (g : String) (e : ContainerEvent) (rest : List ContainerEvent)
    (h : ¬ isExitOf g e = true) :
    lastExitCodeOf g (e :: rest) = lastExitCodeOf g rest := by
  unfold lastExitCodeOf
  rw [List.filter_cons_of_neg h]

theorem lastExitCodeOf_cons (g : String) (e : ContainerEvent) (rest : List ContainerEvent)
    (d : Int) :
    (lastExitCodeOf g (e :: rest)).getD d =
      (lastExitCodeOf g rest).getD (if isExitOf g e then e.ExitCode else d) := by
  by_cases h : isExitOf g e = true
  · simp [lastExitCodeOf_cons_pos g e rest h, h]
  · simp [lastExitCodeOf_cons_neg g e rest h, h]

/-- Only an Exit event makes the loop return. -/
theorem step_ret_none_of_not_exit (c : Bool) (f : Nat → Option GoError) (s : State)
    (e : ContainerEvent) (h : e.Type_ ≠ EventType.ContainerEventExit) :
    (step c f s e).ret = none := by
  cases ht : e.Type_ with
  | UserCancel => simp [step_cancel c f s e ht]
  | ContainerEventAttach =>
    by_cases hm : e.Container ∈ s.containers
    · simp [step_attach_mem c f s e ht hm]
    · simp [step_attach_not_mem c f s e ht hm]
  | ContainerEventLog => simp [step_log c f s e ht]
  | ContainerEventExit => exact absurd ht h

/-- With cascade stop and a chosen source `g`, one iteration keeps the source
and takes the code of an Exit event of `g`. -/
theorem step_fixed_source (f : Nat → Option GoError) (hf : ∀ n, f n = none) (g : String)
    (hg : g ≠ "") (s : State) (e : ContainerEvent) (hs : s.exitCodeFrom = g) :
    (step true f s e).state.exitCodeFrom = g ∧
      (step true f s e).state.exitCode = (if isExitOf g e then e.ExitCode else s.exitCode) := by
  obtain ⟨h1, h2⟩ := step_cascade_code f hf s e
  rw [h1, h2]
  by_cases ht : e.Type_ = EventType.ContainerEventExit
  · by_cases hsv : e.Service = g
    · simp [ht, sourceAfter, codeAfter, isExitOf, hs, hg, hsv]
    · have hsv2 : ¬ g = e.Service := fun h => hsv h.symm
      simp [ht, sourceAfter, codeAfter, isExitOf, hs, hg, hsv, hsv2]
  · simp [ht, isExitOf, hs]

/-- With cascade stop and a chosen source `g`, the accumulated code is that of
the last processed Exit event of `g`. -/
theorem runLoop_fixed_source (f : Nat → Option GoError) (hf : ∀ n, f n = none) (g : String)
    (hg : g ≠ "") :
    ∀ (events : List ContainerEvent) (s : State), s.exitCodeFrom = g →
      (runLoop true f s events).state.exitCodeFrom = g ∧
        (runLoop true f s events).state.exitCode =
          (lastExitCodeOf g (processed true f s events)).getD s.exitCode := by
  intro events
  induction events with
  | nil => intro s hs; simp [runLoop, processed, lastExitCodeOf, hs]
  | cons e rest ih =>
    intro s hs
    obtain ⟨h1, h2⟩ := step_fixed_source f hf g hg s e hs
    cases hr : (step true f s e).ret with
    | some r1 =>
      rw [runLoop_cons_ret true f s e _ r1 hr, processed_cons_ret true f s e _ r1 hr,
        lastExitCodeOf_cons]
      simp [h1, h2, lastExitCodeOf]
    | none =>
      rw [runLoop_cons_none true f s e _ hr, processed_cons_none true f s e _ hr,
        lastExitCodeOf_cons]
      obtain ⟨i1, i2⟩ := ih (step true f s e).state h1
      exact ⟨i1, by rw [i2, h2]⟩

/-- With cascade stop and no source chosen, the group of the first processed
Exit event, when its name is not empty, is the source from then on. -/
theorem runLoop_first_exit_source (f : Nat → Option GoError) (hf : ∀ n, f n = none)
    (g : String) (hg : g ≠ "") :
    ∀ (events : List ContainerEvent) (s : State), s.exitCodeFrom = "" →
      firstExitService (processed true f s events) = some g →
      (runLoop true f s events).state.exitCodeFrom = g ∧
        lastExitCodeOf g (processed true f s events) =
          some (runLoop true f s events).state.exitCode := by
  intro events
  induction events with
  | nil => intro s _ h; simp [processed, firstExitService] at h
  | cons e rest ih =>
    intro s hs hfirst
    obtain ⟨h1, h2⟩ := step_cascade_code f hf s e
    by_cases ht : e.Type_ = EventType.ContainerEventExit
    · have hsv : e.Service = g := by
        cases hr : (step true f s e).ret with
        | some r1 =>
          rw [processed_cons_ret true f s e _ r1 hr] at hfirst
          simpa [firstExitService, ht] using hfirst
        | none =>
          rw [processed_cons_none true f s e _ hr] at hfirst
          simpa [firstExitService, ht] using hfirst
      have hx : isExitOf g e = true := by simp [isExitOf, ht, hsv]
      have k1 : (step true f s e).state.exitCodeFrom = g := by
        rw [h1]; simp [ht, sourceAfter, hs, hsv]
      have k2 : (step true f s e).state.exitCode = e.ExitCode := by
        rw [h2]; simp [ht, sourceAfter, codeAfter, hs]
      cases hr : (step true f s e).ret with
      | some r1 =>
        rw [runLoop_cons_ret true f s e _ r1 hr, processed_cons_ret true f s e _ r1 hr,
          lastExitCodeOf_cons_pos g e _ hx]
        simp [k1, k2, lastExitCodeOf]
      | none =>
        rw [runLoop_cons_none true f s e _ hr, processed_cons_none true f s e _ hr,
          lastExitCodeOf_cons_pos g e _ hx]
        obtain ⟨i1, i2⟩ := runLoop_fixed_source f hf g hg rest (step true f s e).state k1
        exact ⟨i1, by rw [i2, k2]⟩
    · have hr := step_ret_none_of_not_exit true f s e ht
      have hx : ¬ isExitOf g e = true := by simp [isExitOf, ht]
      have k1 : (step true f s e).state.exitCodeFrom = "" := by
        rw [h1]; simp [ht, hs]
      rw [processed_cons_none true f s e _ hr] at hfirst ⊢
      rw [runLoop_cons_none true f s e _ hr, lastExitCodeOf_cons_neg g e _ hx]
      have hfirst2 : firstExitService (processed true f (step true f s e).state rest) = some g := by
        simpa [firstExitService, ht] using hfirst
      exact ih _ k1 hfirst2

/-- One iteration without cascade stop: the code and the number of `stopFn`
calls stay, `stopFn` is not called, and a return gives the code and nil. -/
theorem step_plain (f : Nat → Option GoError) (s : State) (e : ContainerEvent) :
    (step false f s e).state.exitCode = s.exitCode ∧
      (step false f s e).state.stopCalls = s.stopCalls ∧
      Effect.StopFn ∉ (step false f s e).effects ∧
      ((step false f s e).ret = none ∨ (step false f s e).ret = some (s.exitCode, none)) := by
  cases ht : e.Type_ with
  | UserCancel => simp [step_cancel false f s e ht]
  | ContainerEventAttach =>
    by_cases hm : e.Container ∈ s.containers
    · simp [step_attach_mem false f s e ht hm]
    · simp [step_attach_not_mem false f s e ht hm]
  | ContainerEventLog => cases ha : s.aborting <;> simp [step_log false f s e ht, ha]
  | ContainerEventExit =>
    rw [step_exit false f s e ht, stepExit_plain]
    cases ha : s.aborting <;> by_cases hc : afterRemoval s e = ∅ <;> simp [ha, hc]

theorem runLoop_plain (f : Nat → Option GoError) :
    ∀ (events : List ContainerEvent) (s : State),
      (runLoop false f s events).state.exitCode = s.exitCode ∧
        (runLoop false f s events).state.stopCalls = s.stopCalls ∧
        Effect.StopFn ∉ (runLoop false f s events).effects ∧
        ((runLoop false f s events).ret = none ∨
          (runLoop false f s events).ret = some (s.exitCode, none)) := by
  intro events
  induction events with
  | nil => intro s; simp [runLoop]
  | cons e rest ih =>
    intro s
    obtain ⟨h1, h2, h3, h4⟩ := step_plain f s e
    cases hr : (step false f s e).ret with
    | some r1 =>
      rw [runLoop_cons_ret false f s e _ r1 hr]
      rw [hr] at h4
      exact ⟨h1, h2, h3, h4⟩
    | none =>
      rw [runLoop_cons_none false f s e _ hr]
      obtain ⟨i1, i2, i3, i4⟩ := ih (step false f s e).state
      refine ⟨by rw [i1, h1], by rw [i2, h2], ?_, ?_⟩
      · simp only [List.mem_append, not_or]
        exact ⟨h3, i3⟩
      · rw [h1] at i4
        exact i4

/-! ## The claims -/

/-- C1, as stated, fails when the first group to exit has the empty name: the
empty name is also the value of `exitCodeFrom` that means "not chosen yet", so
the next Exit event, of group `db`, is taken as the source and its code 5 is
returned, not the code 2 of the last Exit event of the first group. -/
theorem C1_counterexample_empty_group :
    processed true (fun _ => none) (initState "") emptyGroupFirst = emptyGroupFirst ∧
      firstExitService emptyGroupFirst = some "" ∧
      lastExitCodeOf "" emptyGroupFirst = some 2 ∧
      (Run true "" (fun _ => none) emptyGroupFirst).ret = some (5, none) ∧
      (Run true "" (fun _ => none) emptyGroupFirst).state.exitCodeFrom = "db" := by
  decide

/-- C1 (amended): with `cascadeStop = true`, `exitCodeFrom = ""` and a `stopFn`
that succeeds, when the first processed Exit event has a non-empty `Service` g,
g is the exit-code source for the rest of the run: the accumulated code, and
the code `Run` returns (with a nil error) when it returns, is the `ExitCode` of
the last processed Exit event whose `Service` is g, so no Exit event of another
group changes it. -/
theorem C1_first_exiting_group_is_source (stopFn : Nat → Option GoError)
    (events : List ContainerEvent) (g : String)
    (hstop : ∀ n, stopFn n = none)
    (hfirst : firstExitService (processed true stopFn (initState "") events) = some g)
    (hg : g ≠ "") :
    (Run true "" stopFn events).state.exitCodeFrom = g ∧
      lastExitCodeOf g (processed true stopFn (initState "") events) =
        some (Run true "" stopFn events).state.exitCode ∧
      ∀ code err, (Run true "" stopFn events).ret = some (code, err) →
        err = none ∧
          lastExitCodeOf g (processed true stopFn (initState "") events) = some code := by
  obtain ⟨h1, h2⟩ :=
    runLoop_first_exit_source stopFn hstop g hg events (initState "") rfl hfirst
  refine ⟨h1, h2, ?_⟩
  intro code err hret
  have h3 := runLoop_ret_code true stopFn hstop events (initState "") _ hret
  simp only [Prod.mk.injEq] at h3
  exact ⟨h3.2, by rw [h2, h3.1]⟩

/-- The scenario of the spec: the run returns 2, the code of group `web`. -/
theorem C1_witness_web_then_db :
    (Run true "" (fun _ => none) webThenDb).ret = some (2, none) ∧
      ((Run true "" (fun _ => none) webThenDb).state.exitCodeFrom = "web" ∧
        lastExitCodeOf "web" (processed true (fun _ => none) (initState "") webThenDb) =
          some (Run true "" (fun _ => none) webThenDb).state.exitCode ∧
        ∀ code err, (Run true "" (fun _ => none) webThenDb).ret = some (code, err) →
          err = none ∧
            lastExitCodeOf "web" (processed true (fun _ => none) (initState "") webThenDb) =
              some code) :=
  ⟨by decide,
    C1_first_exiting_group_is_source (fun _ => none) webThenDb "web" (fun _ => rfl)
      (by decide) (by decide)⟩

/-- C2: with `cascadeStop = false`, whatever `exitCodeFrom`, `stopFn` and the
events are, `Run` either has not returned or has returned exit code 0 with a
nil error, and `stopFn` is never invoked. -/
theorem C2_no_cascade_returns_zero (exitCodeFrom : String) (stopFn : Nat → Option GoError)
    (events : List ContainerEvent) :
    ((Run false exitCodeFrom stopFn events).ret = none ∨
        (Run false exitCodeFrom stopFn events).ret = some (0, none)) ∧
      Effect.StopFn ∉ (Run false exitCodeFrom stopFn events).effects ∧
      (Run false exitCodeFrom stopFn events).state.stopCalls = 0 := by
  obtain ⟨_, h2, h3, h4⟩ := runLoop_plain stopFn events (initState exitCodeFrom)
  exact ⟨h4, h3, h2⟩

/-- C3: with `cascadeStop = true`, a non-empty `exitCodeFrom = g` and a
`stopFn` that succeeds, the accumulated code, and the code `Run` returns (with
a nil error) when it returns, is the `ExitCode` of the last processed Exit
event whose `Service` is g, restarting or not, and 0 when there is none; an
event of another group never changes the code. -/
theorem C3_preselected_source (stopFn : Nat → Option GoError) (events : List ContainerEvent)
    (g : String) (hg : g ≠ "") (hstop : ∀ n, stopFn n = none) :
    (Run true g stopFn events).state.exitCode =
        (lastExitCodeOf g (processed true stopFn (initState g) events)).getD 0 ∧
      (∀ code err, (Run true g stopFn events).ret = some (code, err) →
        err = none ∧
          code = (lastExitCodeOf g (processed true stopFn (initState g) events)).getD 0) ∧
      ∀ (s : State) (e : ContainerEvent), s.exitCodeFrom = g → e.Service ≠ g →
        (step true stopFn s e).state.exitCode = s.exitCode := by
  obtain ⟨_, h2⟩ := runLoop_fixed_source stopFn hstop g hg events (initState g) rfl
  refine ⟨h2, ?_, ?_⟩
  · intro code err hret
    have h3 := runLoop_ret_code true stopFn hstop events (initState g) _ hret
    simp only [Prod.mk.injEq] at h3
    exact ⟨h3.2, by rw [h3.1]; exact h2⟩
  · intro s e hs hsv
    have h := (step_fixed_source stopFn hstop g hg s e hs).2
    rw [h]
    simp [isExitOf, hsv]

/-- The run `dbPreselected` returns 3, the code of the last exit of `db`. -/
theorem C3_witness_db_preselected :
    (Run true "db" (fun _ => none) dbPreselected).ret = some (3, none) ∧
      ((Run true "db" (fun _ => none) dbPreselected).state.exitCode =
          (lastExitCodeOf "db"
            (processed true (fun _ => none) (initState "db") dbPreselected)).getD 0 ∧
        (∀ code err, (Run true "db" (fun _ => none) dbPreselected).ret = some (code, err) →
          err = none ∧
            code = (lastExitCodeOf "db"
              (processed true (fun _ => none) (initState "db") dbPreselected)).getD 0) ∧
        ∀ (s : State) (e : ContainerEvent), s.exitCodeFrom = "db" → e.Service ≠ "db" →
          (step true (fun _ => none) s e).state.exitCode = s.exitCode) :=
  ⟨by decide, C3_preselected_source (fun _ => none) dbPreselected "db" (by decide) (fun _ => rfl)⟩

/-! ## Returning, and the stop function -/

/-- When the loop has not returned on `xs`, it goes on with `ys` from the
variables it has reached. -/
theorem runLoop_append_of_none (c : Bool) (f : Nat → Option GoError) :
    ∀ (xs ys : List ContainerEvent) (s : State), (runLoop c f s xs).ret = none →
      runLoop c f s (xs ++ ys) =
        ⟨(runLoop c f (runLoop c f s xs).state ys).state,
          (runLoop c f s xs).effects ++ (runLoop c f (runLoop c f s xs).state ys).effects,
          (runLoop c f (runLoop c f s xs).state ys).ret⟩ := by
  intro xs
  induction xs with
  | nil => intro ys s _; simp [runLoop]
  | cons e rest ih =>
    intro ys s h
    cases hr : (step c f s e).ret with
    | some r1 => rw [runLoop_cons_ret c f s e _ r1 hr] at h; simp at h
    | none =>
      rw [runLoop_cons_none c f s e _ hr] at h
      simp only at h
      rw [List.cons_append, runLoop_cons_none c f s e _ hr, runLoop_cons_none c f s e _ hr,
        ih ys _ h]
      simp

theorem runLoop_singleton (c : Bool) (f : Nat → Option GoError) (s : State)
    (e : ContainerEvent) : runLoop c f s [e] = step c f s e := by
  cases hr : (step c f s e).ret with
  | some r1 => rw [runLoop_cons_ret c f s e _ r1 hr, ← hr]
  | none =>
    rw [runLoop_cons_none c f s e _ hr]
    simp [runLoop, ← hr]

/-- The four ways through the Exit branch. -/
theorem stepExit_cases (c : Bool) (f : Nat → Option GoError) (s : State) (e : ContainerEvent) :
    (c = false ∧ stepExit c f s e =
        ⟨⟨afterRemoval s e, s.aborting, s.exitCodeFrom, s.exitCode, s.stopCalls⟩,
          if s.aborting then [] else [Effect.Status e.Container (statusText e.ExitCode)],
          if afterRemoval s e = ∅ then some (s.exitCode, none) else none⟩) ∨
      (c = true ∧ s.aborting = false ∧ ∃ err, f s.stopCalls = some err ∧ stepExit c f s e =
        ⟨⟨afterRemoval s e, true, s.exitCodeFrom, s.exitCode, s.stopCalls + 1⟩,
          [Effect.Status e.Container (statusText e.ExitCode),
            Effect.Println "Aborting on container exit...", Effect.StopFn],
          some (0, some err)⟩) ∨
      (c = true ∧ s.aborting = false ∧ f s.stopCalls = none ∧ stepExit c f s e =
        ⟨⟨afterRemoval s e, true, sourceAfter s e, codeAfter s e, s.stopCalls + 1⟩,
          [Effect.Status e.Container (statusText e.ExitCode),
            Effect.Println "Aborting on container exit...", Effect.StopFn] ++
            (if sourceAfter s e == e.Service then [Effect.LogrusError e.ExitCode] else []),
          if afterRemoval s e = ∅ then some (codeAfter s e, none) else none⟩) ∨
      (c = true ∧ s.aborting = true ∧ stepExit c f s e =
        ⟨⟨afterRemoval s e, true, sourceAfter s e, codeAfter s e, s.stopCalls⟩,
          if sourceAfter s e == e.Service then [Effect.LogrusError e.ExitCode] else [],
          if afterRemoval s e = ∅ then some (codeAfter s e, none) else none⟩) := by
  cases c with
  | false => exact Or.inl ⟨rfl, stepExit_plain f s e⟩
  | true =>
    cases ha : s.aborting with
    | true => exact Or.inr (Or.inr (Or.inr ⟨rfl, rfl, stepExit_aborting f s e ha⟩))
    | false =>
      cases hf : f s.stopCalls with
      | some err => exact Or.inr (Or.inl ⟨rfl, rfl, err, rfl, stepExit_fail f s e err ha hf⟩)
      | none => exact Or.inr (Or.inr (Or.inl ⟨rfl, rfl, rfl, stepExit_trigger f s e ha hf⟩))

/-- One iteration returns exactly at an Exit event that leaves the registered
set empty or whose `stopFn` call fails. -/
theorem step_ret_iff (c : Bool) (f : Nat → Option GoError) (s : State) (e : ContainerEvent) :
    (step c f s e).ret ≠ none ↔
      e.Type_ = EventType.ContainerEventExit ∧
        (afterRemoval s e = ∅ ∨ (c = true ∧ s.aborting = false ∧ f s.stopCalls ≠ none)) := by
  by_cases ht : e.Type_ = EventType.ContainerEventExit
  · rw [step_exit c f s e ht]
    rcases stepExit_cases c f s e with ⟨hc, h⟩ | ⟨hc, ha, err, hf, h⟩ | ⟨hc, ha, hf, h⟩ |
      ⟨hc, ha, h⟩
    · rw [h]; by_cases hr : afterRemoval s e = ∅ <;> simp [ht, hc, hr]
    · rw [h]; simp [ht, hc, ha, hf]
    · rw [h]; by_cases hr : afterRemoval s e = ∅ <;> simp [ht, hc, ha, hf, hr]
    · rw [h]; by_cases hr : afterRemoval s e = ∅ <;> simp [ht, hc, ha, hr]
  · simp [step_ret_none_of_not_exit c f s e ht, ht]

/-- C4, as stated, fails twice.  An Exit event received while the registered
set is empty, here the first event of the run, makes `Run` return although the
set has never been non-empty.  And when the `stopFn` call of the cascade stop
fails, `Run` returns at an Exit event that leaves the set non-empty. -/
theorem C4_counterexample_return_without_emptying :
    (initState "").containers = ∅ ∧
      (Run false "" (fun _ => none) exitBeforeAttach).ret = some (0, none) ∧
      (Run true "" (fun _ => some "stop failed") firstOfTwoExits).ret =
        some (0, some "stop failed") ∧
      (Run true "" (fun _ => some "stop failed") firstOfTwoExits).state.containers = {"B"} := by
  decide

/-- C4 (amended): `Run` returns at an event if and only if the event is an Exit
event and either the registered set is empty after its removal step, whether or
not it was non-empty before, or the event triggers the cascade stop and
`stopFn` fails.  This holds for one iteration from any variables, and for the
event that follows any sequence on which `Run` has not returned; `Run` never
returns at a UserCancel, Attach or Log event. -/
theorem C4_returns_iff_exit_leaves_empty_or_stop_fails :
    (∀ (c : Bool) (f : Nat → Option GoError) (s : State) (e : ContainerEvent),
        (step c f s e).ret ≠ none ↔
          e.Type_ = EventType.ContainerEventExit ∧
            (afterRemoval s e = ∅ ∨ (c = true ∧ s.aborting = false ∧ f s.stopCalls ≠ none))) ∧
      (∀ (c : Bool) (g : String) (f : Nat → Option GoError) (pre : List ContainerEvent)
          (e : ContainerEvent), (Run c g f pre).ret = none →
        ((Run c g f (pre ++ [e])).ret ≠ none ↔
          e.Type_ = EventType.ContainerEventExit ∧
            (afterRemoval (Run c g f pre).state e = ∅ ∨
              (c = true ∧ (Run c g f pre).state.aborting = false ∧
                f (Run c g f pre).state.stopCalls ≠ none)))) ∧
      (∀ (c : Bool) (f : Nat → Option GoError) (s : State) (e : ContainerEvent),
        e.Type_ ≠ EventType.ContainerEventExit → (step c f s e).ret = none) := by
  refine ⟨step_ret_iff, ?_, step_ret_none_of_not_exit⟩
  intro c g f pre e hpre
  unfold Run at hpre ⊢
  rw [runLoop_append_of_none c f pre [e] _ hpre, runLoop_singleton]
  exact step_ret_iff c f _ e

/-- The ways through the other three branches of the `switch`. -/
theorem step_cases_not_exit (c : Bool) (f : Nat → Option GoError) (s : State)
    (e : ContainerEvent) (h : e.Type_ ≠ EventType.ContainerEventExit) :
    (e.Type_ = EventType.UserCancel ∧ step c f s e = ⟨{ s with aborting := true }, [], none⟩) ∨
      (e.Type_ = EventType.ContainerEventAttach ∧ e.Container ∈ s.containers ∧
        step c f s e = ⟨s, [], none⟩) ∨
      (e.Type_ = EventType.ContainerEventAttach ∧ e.Container ∉ s.containers ∧
        step c f s e = ⟨{ s with containers := insert e.Container s.containers },
          [Effect.Register e.Container], none⟩) ∨
      (e.Type_ = EventType.ContainerEventLog ∧ step c f s e =
        ⟨s, if s.aborting then [] else [Effect.Log e.Container e.Service e.Line], none⟩) := by
  cases ht : e.Type_ with
  | UserCancel => exact Or.inl ⟨rfl, step_cancel c f s e ht⟩
  | ContainerEventAttach =>
    by_cases hm : e.Container ∈ s.containers
    · exact Or.inr (Or.inl ⟨rfl, hm, step_attach_mem c f s e ht hm⟩)
    · exact Or.inr (Or.inr (Or.inl ⟨rfl, hm, step_attach_not_mem c f s e ht hm⟩))
  | ContainerEventLog => exact Or.inr (Or.inr (Or.inr ⟨rfl, step_log c f s e ht⟩))
  | ContainerEventExit => exact absurd ht h

/-- One iteration calls `stopFn` exactly at an Exit event with cascade stop,
the loop not aborting. -/
theorem step_stopFn_mem_iff (c : Bool) (f : Nat → Option GoError) (s : State)
    (e : ContainerEvent) :
    Effect.StopFn ∈ (step c f s e).effects ↔
      c = true ∧ e.Type_ = EventType.ContainerEventExit ∧ s.aborting = false := by
  by_cases ht : e.Type_ = EventType.ContainerEventExit
  · rw [step_exit c f s e ht]
    rcases stepExit_cases c f s e with ⟨hc, h⟩ | ⟨hc, ha, err, hf, h⟩ | ⟨hc, ha, hf, h⟩ |
      ⟨hc, ha, h⟩
    · rw [h]; cases ha : s.aborting <;> simp [hc, ha]
    · rw [h]; simp [hc, ha, ht]
    · rw [h]; simp [hc, ha, ht]
    · rw [h]; by_cases hm : sourceAfter s e = e.Service <;> simp [ha, hm]
  · rcases step_cases_not_exit c f s e ht with ⟨_, h⟩ | ⟨_, _, h⟩ | ⟨_, _, h⟩ | ⟨_, h⟩
    · rw [h]; simp [ht]
    · rw [h]; simp [ht]
    · rw [h]; simp [ht]
    · rw [h]; cases ha : s.aborting <;> simp [ht]

/-- One iteration calls `stopFn` at most once and counts the call. -/
theorem step_stopCalls (c : Bool) (f : Nat → Option GoError) (s : State) (e : ContainerEvent) :
    (step c f s e).state.stopCalls = s.stopCalls + (step c f s e).effects.count Effect.StopFn ∧
      (step c f s e).effects.count Effect.StopFn ≤ 1 := by
  by_cases ht : e.Type_ = EventType.ContainerEventExit
  · rw [step_exit c f s e ht]
    rcases stepExit_cases c f s e with ⟨hc, h⟩ | ⟨hc, ha, err, hf, h⟩ | ⟨hc, ha, hf, h⟩ |
      ⟨hc, ha, h⟩
    · rw [h]; cases ha : s.aborting <;> simp [List.count_cons]
    · rw [h]; simp [List.count_cons]
    · rw [h]; by_cases hm : sourceAfter s e = e.Service <;> simp [hm, List.count_cons]
    · rw [h]; by_cases hm : sourceAfter s e = e.Service <;> simp [hm, List.count_cons]
  · rcases step_cases_not_exit c f s e ht with ⟨_, h⟩ | ⟨_, _, h⟩ | ⟨_, _, h⟩ | ⟨_, h⟩
    · rw [h]; simp
    · rw [h]; simp
    · rw [h]; simp [List.count_cons]
    · rw [h]; cases ha : s.aborting <;> simp [List.count_cons]

/-- The flag `aborting` is never reset. -/
theorem step_aborting_mono (c : Bool) (f : Nat → Option GoError) (s : State)
    (e : ContainerEvent) (h : s.aborting = true) : (step c f s e).state.aborting = true := by
  by_cases ht : e.Type_ = EventType.ContainerEventExit
  · rw [step_exit c f s e ht]
    rcases stepExit_cases c f s e with ⟨hc, h1⟩ | ⟨hc, ha, err, hf, h1⟩ | ⟨hc, ha, hf, h1⟩ |
      ⟨hc, ha, h1⟩ <;> simp [h1, h]
  · rcases step_cases_not_exit c f s e ht with ⟨_, h1⟩ | ⟨_, _, h1⟩ | ⟨_, _, h1⟩ | ⟨_, h1⟩ <;>
      rw [h1] <;> simp [h]

/-- The iteration that calls `stopFn` sets `aborting`. -/
theorem step_stopFn_sets_aborting (c : Bool) (f : Nat → Option GoError) (s : State)
    (e : ContainerEvent) (h : Effect.StopFn ∈ (step c f s e).effects) :
    (step c f s e).state.aborting = true := by
  obtain ⟨hc, ht, ha⟩ := (step_stopFn_mem_iff c f s e).1 h
  rw [step_exit c f s e ht]
  rcases stepExit_cases c f s e with ⟨hc1, h1⟩ | ⟨_, _, err, hf, h1⟩ | ⟨_, _, hf, h1⟩ |
    ⟨_, ha1, h1⟩
  · rw [hc] at hc1; exact absurd hc1 (by decide)
  · rw [h1]
  · rw [h1]
  · rw [h1]

/-- One iteration returns an error exactly when its `stopFn` call fails, and
then it returns the code 0 with that error. -/
theorem step_err_iff (c : Bool) (f : Nat → Option GoError) (s : State) (e : ContainerEvent)
    (code : Int) (err : GoError) :
    (step c f s e).ret = some (code, some err) ↔
      e.Type_ = EventType.ContainerEventExit ∧ c = true ∧ s.aborting = false ∧
        f s.stopCalls = some err ∧ code = 0 := by
  by_cases ht : e.Type_ = EventType.ContainerEventExit
  · rw [step_exit c f s e ht]
    rcases stepExit_cases c f s e with ⟨hc, h⟩ | ⟨hc, ha, err1, hf, h⟩ | ⟨hc, ha, hf, h⟩ |
      ⟨hc, ha, h⟩
    · rw [h]; by_cases hr : afterRemoval s e = ∅ <;> simp [hc, hr]
    · rw [h]; simp [ht, hc, ha, hf, eq_comm, and_comm]
    · rw [h]; by_cases hr : afterRemoval s e = ∅ <;> simp [hc, ha, hf, hr]
    · rw [h]; by_cases hr : afterRemoval s e = ∅ <;> simp [hc, ha, hr]
  · simp [step_ret_none_of_not_exit c f s e ht, ht]

theorem step_stopFnFresh (c : Bool) (f : Nat → Option GoError) (s : State) (e : ContainerEvent)
    (h : stopFnFresh s) : stopFnFresh (step c f s e).state := by
  unfold stopFnFresh at h ⊢
  by_cases ht : e.Type_ = EventType.ContainerEventExit
  · rw [step_exit c f s e ht]
    rcases stepExit_cases c f s e with ⟨hc, h1⟩ | ⟨hc, ha, err, hf, h1⟩ | ⟨hc, ha, hf, h1⟩ |
      ⟨hc, ha, h1⟩ <;> rw [h1] <;> simp
    exact h
  · rcases step_cases_not_exit c f s e ht with ⟨_, h1⟩ | ⟨_, _, h1⟩ | ⟨_, _, h1⟩ | ⟨_, h1⟩ <;>
      rw [h1] <;> simp
    · exact h
    · exact h
    · exact h

/-- Once the loop is aborting, `stopFn` is not called any more. -/
theorem runLoop_no_stopFn_of_aborting (c : Bool) (f : Nat → Option GoError) :
    ∀ (events : List ContainerEvent) (s : State), s.aborting = true →
      Effect.StopFn ∉ (runLoop c f s events).effects := by
  intro events
  induction events with
  | nil => intro s _; simp [runLoop]
  | cons e rest ih =>
    intro s ha
    have h1 : Effect.StopFn ∉ (step c f s e).effects := by
      rw [step_stopFn_mem_iff]; simp [ha]
    cases hr : (step c f s e).ret with
    | some r1 => rw [runLoop_cons_ret c f s e _ r1 hr]; exact h1
    | none =>
      rw [runLoop_cons_none c f s e _ hr]
      simp only [List.mem_append, not_or]
      exact ⟨h1, ih _ (step_aborting_mono c f s e ha)⟩

/-- The loop returns an error exactly when it has called `stopFn` and that
first call failed. -/
theorem runLoop_err_iff (c : Bool) (f : Nat → Option GoError) (code : Int) (err : GoError) :
    ∀ (events : List ContainerEvent) (s : State), stopFnFresh s →
      ((runLoop c f s events).ret = some (code, some err) ↔
        code = 0 ∧ Effect.StopFn ∈ (runLoop c f s events).effects ∧ f 0 = some err) := by
  intro events
  induction events with
  | nil => intro s _; simp [runLoop]
  | cons e rest ih =>
    intro s hs
    have key : Effect.StopFn ∈ (step c f s e).effects → f 0 = some err →
        (step c f s e).ret = some (0, some err) := by
      intro hm hf
      obtain ⟨hc, ht, ha⟩ := (step_stopFn_mem_iff c f s e).1 hm
      rw [step_err_iff]
      exact ⟨ht, hc, ha, by rw [hs ha]; exact hf, rfl⟩
    cases hr : (step c f s e).ret with
    | some r1 =>
      rw [runLoop_cons_ret c f s e _ r1 hr]
      constructor
      · intro h
        simp only [Option.some.injEq] at h
        rw [h] at hr
        obtain ⟨ht, hc, ha, hf, h0⟩ := (step_err_iff c f s e code err).1 hr
        refine ⟨h0, (step_stopFn_mem_iff c f s e).2 ⟨hc, ht, ha⟩, ?_⟩
        rw [← hs ha]; exact hf
      · rintro ⟨h0, hm, hf⟩
        have := key hm hf
        rw [hr] at this
        rw [this, h0]
    | none =>
      rw [runLoop_cons_none c f s e _ hr]
      simp only [List.mem_append]
      rw [ih _ (step_stopFnFresh c f s e hs)]
      constructor
      · rintro ⟨h0, hm, hf⟩
        exact ⟨h0, Or.inr hm, hf⟩
      · rintro ⟨h0, hm | hm, hf⟩
        · have := key hm hf
          rw [hr] at this
          exact absurd this (by simp)
        · exact ⟨h0, hm, hf⟩

/-- The loop calls `stopFn` at most once, and counts its calls. -/
theorem runLoop_stopFn_count (c : Bool) (f : Nat → Option GoError) :
    ∀ (events : List ContainerEvent) (s : State),
      (runLoop c f s events).effects.count Effect.StopFn ≤ 1 ∧
        (runLoop c f s events).state.stopCalls =
          s.stopCalls + (runLoop c f s events).effects.count Effect.StopFn := by
  intro events
  induction events with
  | nil => intro s; simp [runLoop]
  | cons e rest ih =>
    intro s
    obtain ⟨h1, h2⟩ := step_stopCalls c f s e
    cases hr : (step c f s e).ret with
    | some r1 => rw [runLoop_cons_ret c f s e _ r1 hr]; exact ⟨h2, h1⟩
    | none =>
      rw [runLoop_cons_none c f s e _ hr]
      obtain ⟨i1, i2⟩ := ih (step c f s e).state
      simp only [List.count_append]
      refine ⟨?_, by rw [i2, h1]; omega⟩
      by_cases hm : Effect.StopFn ∈ (step c f s e).effects
      · have ha := step_stopFn_sets_aborting c f s e hm
        have h0 := runLoop_no_stopFn_of_aborting c f rest _ ha
        rw [List.count_eq_zero_of_not_mem h0]
        omega
      · rw [List.count_eq_zero_of_not_mem hm]
        omega

/-- Once the loop is aborting, one iteration makes no `Status` and no `Log`
call. -/
theorem step_quiet (c : Bool) (f : Nat → Option GoError) (s : State) (e : ContainerEvent)
    (ha : s.aborting = true) : ∀ x ∈ (step c f s e).effects, x.isStatusOrLog = false := by
  by_cases ht : e.Type_ = EventType.ContainerEventExit
  · rw [step_exit c f s e ht]
    rcases stepExit_cases c f s e with ⟨hc, h⟩ | ⟨hc, ha1, err, hf, h⟩ | ⟨hc, ha1, hf, h⟩ |
      ⟨hc, ha1, h⟩
    · rw [h]; simp [ha]
    · rw [ha] at ha1; exact absurd ha1 (by decide)
    · rw [ha] at ha1; exact absurd ha1 (by decide)
    · rw [h]; by_cases hm : sourceAfter s e = e.Service <;> simp [hm, Effect.isStatusOrLog]
  · rcases step_cases_not_exit c f s e ht with ⟨_, h⟩ | ⟨_, _, h⟩ | ⟨_, _, h⟩ | ⟨_, h⟩
    · rw [h]; simp
    · rw [h]; simp
    · rw [h]; simp [Effect.isStatusOrLog]
    · rw [h]; simp [ha]

theorem runLoop_quiet (c : Bool) (f : Nat → Option GoError) :
    ∀ (events : List ContainerEvent) (s : State), s.aborting = true →
      ∀ x ∈ (runLoop c f s events).effects, x.isStatusOrLog = false := by
  intro events
  induction events with
  | nil => intro s _; simp [runLoop]
  | cons e rest ih =>
    intro s ha
    have h1 := step_quiet c f s e ha
    cases hr : (step c f s e).ret with
    | some r1 => rw [runLoop_cons_ret c f s e _ r1 hr]; exact h1
    | none =>
      rw [runLoop_cons_none c f s e _ hr]
      intro x hx
      rcases List.mem_append.1 hx with hx | hx
      · exact h1 x hx
      · exact ih _ (step_aborting_mono c f s e ha) x hx

/-- C5: `Run` returns a non-nil error if and only if it has called `stopFn`
(`stopFn 0` is what the first call returns) and the call returned that error,
and the code is then 0.  The Exit event that triggers the cascade stop with a
failing `stopFn` returns `(0, err)` whatever the accumulated code and the
registered set are, and the events that follow a return with an error are not
processed: the variables, the effects and the result are those at the return. -/
theorem C5_error_iff_stopFn_fails :
    (∀ (c : Bool) (g : String) (f : Nat → Option GoError) (events : List ContainerEvent)
        (code : Int) (err : GoError),
        (Run c g f events).ret = some (code, some err) ↔
          code = 0 ∧ Effect.StopFn ∈ (Run c g f events).effects ∧ f 0 = some err) ∧
      (∀ (f : Nat → Option GoError) (s : State) (e : ContainerEvent) (err : GoError),
        e.Type_ = EventType.ContainerEventExit → s.aborting = false →
        f s.stopCalls = some err →
          (step true f s e).ret = some (0, some err) ∧
            Effect.StopFn ∈ (step true f s e).effects ∧
            (step true f s e).state.exitCode = s.exitCode) ∧
      (∀ (c : Bool) (g : String) (f : Nat → Option GoError) (pre post : List ContainerEvent)
          (code : Int) (err : GoError),
        (Run c g f pre).ret = some (code, some err) →
          Run c g f (pre ++ post) = Run c g f pre) := by
  refine ⟨?_, ?_, ?_⟩
  · intro c g f events code err
    exact runLoop_err_iff c f code err events (initState g) (fun _ => rfl)
  · intro f s e err ht ha hf
    refine ⟨(step_err_iff true f s e 0 err).2 ⟨ht, rfl, ha, hf, rfl⟩,
      (step_stopFn_mem_iff true f s e).2 ⟨rfl, ht, ha⟩, ?_⟩
    rw [step_exit true f s e ht, stepExit_fail f s e err ha hf]
  · intro c g f pre post code err h
    exact runLoop_append_of_ret c f pre post (initState g) _ h

/-- C6: `stopFn` is invoked at most once during a run.  An iteration invokes it
exactly when `cascadeStop` is true, the event is an Exit event and `aborting`
is false just before; that iteration and a UserCancel event set `aborting`,
and from variables with `aborting` set no event invokes it. -/
theorem C6_stopFn_at_most_once :
    (∀ (c : Bool) (g : String) (f : Nat → Option GoError) (events : List ContainerEvent),
        (Run c g f events).effects.count Effect.StopFn ≤ 1 ∧
          (Run c g f events).state.stopCalls =
            (Run c g f events).effects.count Effect.StopFn) ∧
      (∀ (c : Bool) (f : Nat → Option GoError) (s : State) (e : ContainerEvent),
        (Effect.StopFn ∈ (step c f s e).effects ↔
          c = true ∧ e.Type_ = EventType.ContainerEventExit ∧ s.aborting = false) ∧
          (step c f s e).effects.count Effect.StopFn ≤ 1) ∧
      (∀ (c : Bool) (f : Nat → Option GoError) (s : State) (e : ContainerEvent),
        Effect.StopFn ∈ (step c f s e).effects → (step c f s e).state.aborting = true) ∧
      (∀ (c : Bool) (f : Nat → Option GoError) (s : State) (e : ContainerEvent),
        e.Type_ = EventType.UserCancel → (step c f s e).state.aborting = true) ∧
      (∀ (c : Bool) (f : Nat → Option GoError) (s : State) (events : List ContainerEvent),
        s.aborting = true → Effect.StopFn ∉ (runLoop c f s events).effects) := by
  refine ⟨?_, ?_, step_stopFn_sets_aborting, ?_, ?_⟩
  · intro c g f events
    obtain ⟨h1, h2⟩ := runLoop_stopFn_count c f events (initState g)
    refine ⟨h1, ?_⟩
    unfold Run
    rw [h2]
    simp [initState]
  · intro c f s e
    exact ⟨step_stopFn_mem_iff c f s e, (step_stopCalls c f s e).2⟩
  · intro c f s e ht
    rw [step_cancel c f s e ht]
  · intro c f s events ha
    exact runLoop_no_stopFn_of_aborting c f events s ha

/-- C7: once `aborting` is set, which a UserCancel event and the iteration that
calls `stopFn` do, no event processed afterwards makes a `Status` or a `Log`
call, from any variables and after any sequence on which `Run` has not
returned; an Attach event for a container that is not registered still adds it
and still makes the `Register` call. -/
theorem C7_aborting_silences_status_and_log :
    (∀ (c : Bool) (f : Nat → Option GoError) (s : State) (events : List ContainerEvent),
        s.aborting = true → ∀ x ∈ (runLoop c f s events).effects, x.isStatusOrLog = false) ∧
      (∀ (c : Bool) (g : String) (f : Nat → Option GoError) (pre post : List ContainerEvent),
        (Run c g f pre).ret = none → (Run c g f pre).state.aborting = true →
          ∃ later, (Run c g f (pre ++ post)).effects = (Run c g f pre).effects ++ later ∧
            ∀ x ∈ later, x.isStatusOrLog = false) ∧
      (∀ (c : Bool) (f : Nat → Option GoError) (s : State) (e : ContainerEvent),
        s.aborting = true → e.Type_ = EventType.ContainerEventAttach →
        e.Container ∉ s.containers →
          step c f s e = ⟨{ s with containers := insert e.Container s.containers },
            [Effect.Register e.Container], none⟩) ∧
      (∀ (c : Bool) (f : Nat → Option GoError) (s : State) (e : ContainerEvent),
        e.Type_ = EventType.UserCancel → (step c f s e).state.aborting = true) ∧
      (∀ (c : Bool) (f : Nat → Option GoError) (s : State) (e : ContainerEvent),
        Effect.StopFn ∈ (step c f s e).effects → (step c f s e).state.aborting = true) := by
  refine ⟨?_, ?_, ?_, ?_, step_stopFn_sets_aborting⟩
  · intro c f s events ha
    exact runLoop_quiet c f events s ha
  · intro c g f pre post hret ha
    refine ⟨(runLoop c f (Run c g f pre).state post).effects, ?_, ?_⟩
    · unfold Run at hret ⊢
      rw [runLoop_append_of_none c f pre post _ hret]
    · exact runLoop_quiet c f post _ ha
  · intro c f s e _ ht hm
    exact step_attach_not_mem c f s e ht hm
  · intro c f s e ht
    rw [step_cancel c f s e ht]

/-! ## The registered set -/

/-- The registered set after an Exit event, whatever the configuration. -/
theorem stepExit_containers (c : Bool) (f : Nat → Option GoError) (s : State)
    (e : ContainerEvent) : (stepExit c f s e).state.containers = afterRemoval s e := by
  rcases stepExit_cases c f s e with ⟨hc, h⟩ | ⟨hc, ha, err, hf, h⟩ | ⟨hc, ha, hf, h⟩ |
    ⟨hc, ha, h⟩ <;> rw [h]

/-- One iteration makes the call `Register u` exactly at an Attach event of a
container `u` that is not registered. -/
theorem step_register_mem_iff (c : Bool) (f : Nat → Option GoError) (s : State)
    (e : ContainerEvent) (u : String) :
    Effect.Register u ∈ (step c f s e).effects ↔
      e.Type_ = EventType.ContainerEventAttach ∧ e.Container = u ∧ u ∉ s.containers := by
  by_cases ht : e.Type_ = EventType.ContainerEventExit
  · rw [step_exit c f s e ht]
    rcases stepExit_cases c f s e with ⟨hc, h⟩ | ⟨hc, ha, err, hf, h⟩ | ⟨hc, ha, hf, h⟩ |
      ⟨hc, ha, h⟩
    · rw [h]; cases ha : s.aborting <;> simp [ht]
    · rw [h]; simp [ht]
    · rw [h]; by_cases hm : sourceAfter s e = e.Service <;> simp [ht, hm]
    · rw [h]; by_cases hm : sourceAfter s e = e.Service <;> simp [ht, hm]
  · rcases step_cases_not_exit c f s e ht with ⟨ht1, h⟩ | ⟨ht1, hm, h⟩ | ⟨ht1, hm, h⟩ | ⟨ht1, h⟩
    · rw [h]; simp [ht1]
    · rw [h]
      simp only [List.not_mem_nil, false_iff, not_and]
      intro _ hu
      rw [← hu]
      exact fun hn => hn hm
    · rw [h]
      simp only [List.mem_singleton, Effect.Register.injEq]
      constructor
      · intro hu
        exact ⟨ht1, hu.symm, by rw [hu]; exact hm⟩
      · intro hu
        exact hu.2.1.symm
    · rw [h]; cases ha : s.aborting <;> simp [ht1]

/-- A registered container stays registered, except at its own Exit event that
is not restarting. -/
theorem step_keeps_member (c : Bool) (f : Nat → Option GoError) (s : State) (e : ContainerEvent)
    (u : String) (hu : u ∈ s.containers)
    (he : e.Type_ = EventType.ContainerEventExit → e.Container = u → e.Restarting = true) :
    u ∈ (step c f s e).state.containers := by
  by_cases ht : e.Type_ = EventType.ContainerEventExit
  · rw [step_exit c f s e ht, stepExit_containers]
    unfold afterRemoval
    by_cases hr : e.Restarting = true
    · simp [hr, hu]
    · have hne : u ≠ e.Container := fun h => hr (he ht h.symm)
      simp [hr, hu, hne]
  · rcases step_cases_not_exit c f s e ht with ⟨_, h⟩ | ⟨_, _, h⟩ | ⟨_, _, h⟩ | ⟨_, h⟩ <;>
      rw [h] <;> simp [hu]

/-- A container that is not registered stays so, except at its own Attach
event. -/
theorem step_keeps_nonmember (c : Bool) (f : Nat → Option GoError) (s : State)
    (e : ContainerEvent) (u : String) (hu : u ∉ s.containers)
    (he : e.Type_ = EventType.ContainerEventAttach → e.Container ≠ u) :
    u ∉ (step c f s e).state.containers := by
  by_cases ht : e.Type_ = EventType.ContainerEventExit
  · rw [step_exit c f s e ht, stepExit_containers]
    unfold afterRemoval
    by_cases hr : e.Restarting = true <;> simp [hr, hu]
  · rcases step_cases_not_exit c f s e ht with ⟨_, h⟩ | ⟨_, _, h⟩ | ⟨ht1, _, h⟩ | ⟨_, h⟩
    · rw [h]; exact hu
    · rw [h]; exact hu
    · rw [h]
      have hne : u ≠ e.Container := fun h => he ht1 h.symm
      simp [hu, hne]
    · rw [h]; exact hu

/-- After an Attach event the container is registered. -/
theorem step_attach_registered (c : Bool) (f : Nat → Option GoError) (s : State)
    (e : ContainerEvent) (ht : e.Type_ = EventType.ContainerEventAttach) :
    e.Container ∈ (step c f s e).state.containers := by
  by_cases hm : e.Container ∈ s.containers
  · rw [step_attach_mem c f s e ht hm]; exact hm
  · rw [step_attach_not_mem c f s e ht hm]; simp

/-- While a container stays registered the loop makes no `Register` call for
it. -/
theorem runLoop_no_register_of_mem (c : Bool) (f : Nat → Option GoError) (u : String) :
    ∀ (events : List ContainerEvent) (s : State), u ∈ s.containers →
      (∀ e ∈ events, e.Type_ = EventType.ContainerEventExit → e.Container = u →
        e.Restarting = true) →
      Effect.Register u ∉ (runLoop c f s events).effects := by
  intro events
  induction events with
  | nil => intro s _ _; simp [runLoop]
  | cons e rest ih =>
    intro s hu h
    have h1 : Effect.Register u ∉ (step c f s e).effects := by
      rw [step_register_mem_iff]
      exact fun hx => hx.2.2 hu
    cases hr : (step c f s e).ret with
    | some r1 => rw [runLoop_cons_ret c f s e _ r1 hr]; exact h1
    | none =>
      rw [runLoop_cons_none c f s e _ hr]
      simp only [List.mem_append, not_or]
      refine ⟨h1, ih _ (step_keeps_member c f s e u hu (h e (List.mem_cons_self _ _))) ?_⟩
      intro x hx
      exact h x (List.mem_cons_of_mem _ hx)

/-- One iteration makes at most one `Register` call for a container. -/
theorem step_register_count (c : Bool) (f : Nat → Option GoError) (s : State)
    (e : ContainerEvent) (u : String) :
    (step c f s e).effects.count (Effect.Register u) ≤ 1 := by
  by_cases ht : e.Type_ = EventType.ContainerEventExit
  · have hn : Effect.Register u ∉ (step c f s e).effects := by
      rw [step_register_mem_iff]; simp [ht]
    rw [List.count_eq_zero_of_not_mem hn]
    omega
  · rcases step_cases_not_exit c f s e ht with ⟨_, h⟩ | ⟨_, _, h⟩ | ⟨_, _, h⟩ | ⟨_, h⟩
    · rw [h]; simp
    · rw [h]; simp
    · rw [h]; simp only [List.count_cons, List.count_nil]; split_ifs <;> omega
    · rw [h]; cases ha : s.aborting <;> simp [List.count_cons]

/-- Without an Exit event of `u` that is not restarting, the loop makes at
most one `Register` call for `u`. -/
theorem runLoop_register_count (c : Bool) (f : Nat → Option GoError) (u : String) :
    ∀ (events : List ContainerEvent) (s : State),
      (∀ e ∈ events, e.Type_ = EventType.ContainerEventExit → e.Container = u →
        e.Restarting = true) →
      (runLoop c f s events).effects.count (Effect.Register u) ≤ 1 := by
  intro events
  induction events with
  | nil => intro s _; simp [runLoop]
  | cons e rest ih =>
    intro s h
    have hrest : ∀ x ∈ rest, x.Type_ = EventType.ContainerEventExit → x.Container = u →
        x.Restarting = true := fun x hx => h x (List.mem_cons_of_mem _ hx)
    cases hr : (step c f s e).ret with
    | some r1 => rw [runLoop_cons_ret c f s e _ r1 hr]; exact step_register_count c f s e u
    | none =>
      rw [runLoop_cons_none c f s e _ hr]
      simp only [List.count_append]
      by_cases hm : Effect.Register u ∈ (step c f s e).effects
      · obtain ⟨ht, hc, _⟩ := (step_register_mem_iff c f s e u).1 hm
        have hin : u ∈ (step c f s e).state.containers := by
          rw [← hc]; exact step_attach_registered c f s e ht
        have h0 := runLoop_no_register_of_mem c f u rest _ hin hrest
        rw [List.count_eq_zero_of_not_mem h0]
        have := step_register_count c f s e u
        omega
      · rw [List.count_eq_zero_of_not_mem hm]
        have := ih (step c f s e).state hrest
        omega

/-- Before the first Attach event of `u`, `u` is not registered. -/
theorem runLoop_not_mem_of_no_attach (c : Bool) (f : Nat → Option GoError) (u : String) :
    ∀ (events : List ContainerEvent) (s : State), u ∉ s.containers →
      (∀ e ∈ events, e.Type_ = EventType.ContainerEventAttach → e.Container ≠ u) →
      u ∉ (runLoop c f s events).state.containers := by
  intro events
  induction events with
  | nil => intro s hu _; simpa [runLoop] using hu
  | cons e rest ih =>
    intro s hu h
    have h1 := step_keeps_nonmember c f s e u hu (h e (List.mem_cons_self _ _))
    cases hr : (step c f s e).ret with
    | some r1 => rw [runLoop_cons_ret c f s e _ r1 hr]; exact h1
    | none =>
      rw [runLoop_cons_none c f s e _ hr]
      exact ih _ h1 (fun x hx => h x (List.mem_cons_of_mem _ hx))

/-- The loop has not returned before the last of the events it processes. -/
theorem runLoop_ret_none_of_processed (c : Bool) (f : Nat → Option GoError) :
    ∀ (events : List ContainerEvent) (s : State) (pre : List ContainerEvent)
      (a : ContainerEvent) (post : List ContainerEvent),
      processed c f s events = pre ++ a :: post → (runLoop c f s pre).ret = none := by
  intro events
  induction events with
  | nil => intro s pre a post h; simp [processed] at h
  | cons e rest ih =>
    intro s pre a post h
    cases pre with
    | nil => rfl
    | cons p pre1 =>
      cases hr : (step c f s e).ret with
      | some r1 =>
        rw [processed_cons_ret c f s e _ r1 hr] at h
        simp at h
      | none =>
        rw [processed_cons_none c f s e _ hr] at h
        simp only [List.cons_append, List.cons.injEq] at h
        obtain ⟨hp, h2⟩ := h
        subst hp
        rw [runLoop_cons_none c f s e _ hr]
        exact ih _ pre1 a post h2

/-- C8: an Attach event for a registered container changes nothing and makes
no call; for a container that is not registered it adds exactly that container
and makes the one call `Register`; the same Attach event processed twice in a
row leaves the variables of processing it once, and the second makes no call. -/
theorem C8_attach_idempotent (c : Bool) (f : Nat → Option GoError) (s : State)
    (e : ContainerEvent) (ht : e.Type_ = EventType.ContainerEventAttach) :
    (e.Container ∈ s.containers → step c f s e = ⟨s, [], none⟩) ∧
      (e.Container ∉ s.containers →
        step c f s e = ⟨{ s with containers := insert e.Container s.containers },
          [Effect.Register e.Container], none⟩) ∧
      step c f (step c f s e).state e = ⟨(step c f s e).state, [], none⟩ ∧
      runLoop c f s [e, e] = runLoop c f s [e] := by
  have h3 : step c f (step c f s e).state e = ⟨(step c f s e).state, [], none⟩ :=
    step_attach_mem c f _ e ht (step_attach_registered c f s e ht)
  refine ⟨step_attach_mem c f s e ht, step_attach_not_mem c f s e ht, h3, ?_⟩
  have hr := step_ret_none_of_not_exit c f s e (by rw [ht]; decide)
  rw [runLoop_singleton, runLoop_cons_none c f s e _ hr, runLoop_singleton, h3]
  simp [← hr]

/-- The container `A` attached twice at the start of a run: registered once. -/
theorem C8_witness_attach_twice :
    (attachEvent "A" "web").Type_ = EventType.ContainerEventAttach ∧
      (Run false "" (fun _ => none) [attachEvent "A" "web", attachEvent "A" "web"]).effects =
        [Effect.Register "A"] ∧
      (("A" ∈ (initState "").containers →
          step false (fun _ => none) (initState "") (attachEvent "A" "web") =
            ⟨initState "", [], none⟩) ∧
        ("A" ∉ (initState "").containers →
          step false (fun _ => none) (initState "") (attachEvent "A" "web") =
            ⟨{ initState "" with containers := insert "A" (initState "").containers },
              [Effect.Register "A"], none⟩) ∧
        step false (fun _ => none)
            (step false (fun _ => none) (initState "") (attachEvent "A" "web")).state
            (attachEvent "A" "web") =
          ⟨(step false (fun _ => none) (initState "") (attachEvent "A" "web")).state, [], none⟩ ∧
        runLoop false (fun _ => none) (initState "")
            [attachEvent "A" "web", attachEvent "A" "web"] =
          runLoop false (fun _ => none) (initState "") [attachEvent "A" "web"]) :=
  ⟨rfl, by decide,
    C8_attach_idempotent false (fun _ => none) (initState "") (attachEvent "A" "web") rfl⟩

/-- C9, as stated, fails when an Exit event that is not restarting is
interleaved: it removes `A` from the registered set, so the second Attach event
of `A` makes a second `Register` call in the same run. -/
theorem C9_counterexample_reattach_after_exit :
    processed false (fun _ => none) (initState "") reattachAfterExit = reattachAfterExit ∧
      (Run false "" (fun _ => none) reattachAfterExit).effects.count (Effect.Register "A") = 2 ∧
      (Run false "" (fun _ => none) reattachAfterExit).effects.filter
          (fun x => !x.isStatusOrLog) =
        [Effect.Register "A", Effect.Register "B", Effect.Register "A"] := by
  decide

/-- While a container stays registered the loop keeps it registered. -/
theorem runLoop_keeps_member (c : Bool) (f : Nat → Option GoError) (u : String) :
    ∀ (events : List ContainerEvent) (s : State), u ∈ s.containers →
      (∀ e ∈ events, e.Type_ = EventType.ContainerEventExit → e.Container = u →
        e.Restarting = true) →
      u ∈ (runLoop c f s events).state.containers := by
  intro events
  induction events with
  | nil => intro s hu _; simpa [runLoop] using hu
  | cons e rest ih =>
    intro s hu h
    have h1 := step_keeps_member c f s e u hu (h e (List.mem_cons_self _ _))
    cases hr : (step c f s e).ret with
    | some r1 => rw [runLoop_cons_ret c f s e _ r1 hr]; exact h1
    | none =>
      rw [runLoop_cons_none c f s e _ hr]
      exact ih _ h1 (fun x hx => h x (List.mem_cons_of_mem _ hx))

/-- A loop that has not returned on `xs ++ ys` has not returned on `xs`. -/
theorem runLoop_ret_none_of_append (c : Bool) (f : Nat → Option GoError) (s : State)
    (xs ys : List ContainerEvent) (h : (runLoop c f s (xs ++ ys)).ret = none) :
    (runLoop c f s xs).ret = none := by
  cases hr : (runLoop c f s xs).ret with
  | none => rfl
  | some r1 =>
    rw [runLoop_append_of_ret c f xs ys s r1 hr, hr] at h
    exact absurd h (by simp)

/-- An Attach event of a container that is not registered, received by a loop
that has not returned, adds the one call `Register`. -/
theorem runLoop_attach_registers (c : Bool) (f : Nat → Option GoError) (s : State)
    (pre : List ContainerEvent) (a : ContainerEvent) (u : String)
    (hpre : (runLoop c f s pre).ret = none) (hu : u ∉ (runLoop c f s pre).state.containers)
    (ht : a.Type_ = EventType.ContainerEventAttach) (hc : a.Container = u) :
    (runLoop c f s (pre ++ [a])).effects = (runLoop c f s pre).effects ++ [Effect.Register u] := by
  rw [runLoop_append_of_none c f pre [a] _ hpre, runLoop_singleton,
    step_attach_not_mem c f _ a ht (by rw [hc]; exact hu), hc]

/-- The loop makes the call `Register u` at most once, and once more for each
processed Exit event of `u` that is not restarting; not at all before such an
event when `u` is registered. -/
theorem runLoop_register_count_le (c : Bool) (f : Nat → Option GoError) (u : String) :
    ∀ (events : List ContainerEvent) (s : State),
      (runLoop c f s events).effects.count (Effect.Register u) ≤
        (if u ∈ s.containers then 0 else 1) +
          (processed c f s events).countP (isFinalExitOf u) := by
  intro events
  induction events with
  | nil => intro s; simp [runLoop]
  | cons e rest ih =>
    intro s
    have hstep : (step c f s e).effects.count (Effect.Register u) ≤
        (if u ∈ s.containers then 0 else 1) := by
      by_cases hu : u ∈ s.containers
      · have hn : Effect.Register u ∉ (step c f s e).effects := by
          rw [step_register_mem_iff]; exact fun hx => hx.2.2 hu
        rw [List.count_eq_zero_of_not_mem hn]
        omega
      · simp only [hu, if_false]
        exact step_register_count c f s e u
    cases hr : (step c f s e).ret with
    | some r1 =>
      rw [runLoop_cons_ret c f s e _ r1 hr]
      simp only
      omega
    | none =>
      rw [runLoop_cons_none c f s e _ hr, processed_cons_none c f s e _ hr]
      simp only [List.count_append, List.countP_cons]
      have hrest := ih (step c f s e).state
      by_cases hm : Effect.Register u ∈ (step c f s e).effects
      · obtain ⟨ht, hc, hnot⟩ := (step_register_mem_iff c f s e u).1 hm
        have hin : u ∈ (step c f s e).state.containers := by
          rw [← hc]; exact step_attach_registered c f s e ht
        simp only [hin, if_true] at hrest
        simp only [hnot, if_false] at hstep ⊢
        omega
      · rw [List.count_eq_zero_of_not_mem hm]
        by_cases hx : isFinalExitOf u e = true
        · simp only [hx, if_true]
          split_ifs at hrest ⊢ <;> omega
        · have hkeep : e.Type_ = EventType.ContainerEventExit → e.Container = u →
              e.Restarting = true := by
            intro h1 h2
            by_contra h3
            exact hx (by simp [isFinalExitOf, h1, h2, h3])
          by_cases hu : u ∈ s.containers
          · have hin := step_keeps_member c f s e u hu hkeep
            simp only [hin, if_true] at hrest
            simp only [hu, if_true]
            omega
          · simp only [hu, if_false]
            split_ifs at hrest ⊢ <;> omega

/-- C9 (amended): among the processed Attach events of a container `u`, an
Attach event `a` is followed by no `Register u` call for as long as no Exit
event of `u` with `Restarting = false` is processed: the events `mid` after it
make no such call, and a further Attach event of `u` after them makes no call
and changes nothing.  The event `a` itself makes the call `Register u` when no
Attach event of `u` was processed before it in the run, or since the last
processed Exit event of `u` that is not restarting.  So `Register u` is called
at most once, and once more for each processed Exit event of `u` that is not
restarting. -/
theorem C9_register_once_per_registration (c : Bool) (g : String) (f : Nat → Option GoError)
    (events : List ContainerEvent) (u : String) (pre : List ContainerEvent)
    (a : ContainerEvent) (mid post : List ContainerEvent)
    (hp : processed c f (initState g) events = pre ++ a :: (mid ++ post))
    (ht : a.Type_ = EventType.ContainerEventAttach) (hc : a.Container = u)
    (hmid : ∀ e ∈ mid, e.Type_ = EventType.ContainerEventExit → e.Container = u →
      e.Restarting = true) :
    (∃ later, (Run c g f (pre ++ a :: mid)).effects =
        (Run c g f (pre ++ [a])).effects ++ later ∧ Effect.Register u ∉ later) ∧
      (∀ (b : ContainerEvent) (post1 : List ContainerEvent), post = b :: post1 →
        b.Type_ = EventType.ContainerEventAttach → b.Container = u →
          Run c g f (pre ++ a :: (mid ++ [b])) = Run c g f (pre ++ a :: mid)) ∧
      ((∀ e ∈ pre, e.Type_ = EventType.ContainerEventAttach → e.Container ≠ u) →
        (Run c g f (pre ++ [a])).effects = (Run c g f pre).effects ++ [Effect.Register u]) ∧
      (∀ (pre0 : List ContainerEvent) (x : ContainerEvent) (gap : List ContainerEvent),
        pre = pre0 ++ x :: gap → isFinalExitOf u x = true →
        (∀ e ∈ gap, e.Type_ = EventType.ContainerEventAttach → e.Container ≠ u) →
          (Run c g f (pre ++ [a])).effects = (Run c g f pre).effects ++ [Effect.Register u]) ∧
      (Run c g f events).effects.count (Effect.Register u) ≤
        1 + (processed c f (initState g) events).countP (isFinalExitOf u) := by
  have hpre := runLoop_ret_none_of_processed c f events (initState g) pre a (mid ++ post) hp
  have hpa : runLoop c f (initState g) (pre ++ [a]) =
      ⟨(step c f (runLoop c f (initState g) pre).state a).state,
        (runLoop c f (initState g) pre).effects ++
          (step c f (runLoop c f (initState g) pre).state a).effects,
        (step c f (runLoop c f (initState g) pre).state a).ret⟩ := by
    rw [runLoop_append_of_none c f pre [a] _ hpre, runLoop_singleton]
  have hin : u ∈ (runLoop c f (initState g) (pre ++ [a])).state.containers := by
    rw [hpa, ← hc]
    exact step_attach_registered c f _ a ht
  have hsplit : pre ++ a :: mid = (pre ++ [a]) ++ mid := by simp
  refine ⟨?_, ?_, ?_, ?_, ?_⟩
  · unfold Run
    rw [hsplit]
    cases hr : (runLoop c f (initState g) (pre ++ [a])).ret with
    | some r1 =>
      refine ⟨[], ?_, by simp⟩
      rw [runLoop_append_of_ret c f (pre ++ [a]) mid _ r1 hr]
      simp
    | none =>
      refine ⟨(runLoop c f (runLoop c f (initState g) (pre ++ [a])).state mid).effects, ?_, ?_⟩
      · rw [runLoop_append_of_none c f (pre ++ [a]) mid _ hr]
      · exact runLoop_no_register_of_mem c f u mid _ hin hmid
  · intro b post1 hpost hbt hbc
    have hp2 : processed c f (initState g) events = (pre ++ a :: mid) ++ b :: post1 := by
      rw [hp, hpost]; simp
    have hx := runLoop_ret_none_of_processed c f events (initState g) (pre ++ a :: mid) b post1 hp2
    have hx1 : (runLoop c f (initState g) (pre ++ [a])).ret = none := by
      rw [hsplit] at hx
      exact runLoop_ret_none_of_append c f _ _ mid hx
    have hmem : b.Container ∈ (runLoop c f (initState g) (pre ++ a :: mid)).state.containers := by
      rw [hbc, hsplit, runLoop_append_of_none c f (pre ++ [a]) mid _ hx1]
      exact runLoop_keeps_member c f u mid _ hin hmid
    have hsplit2 : pre ++ a :: (mid ++ [b]) = (pre ++ a :: mid) ++ [b] := by simp
    unfold Run
    rw [hsplit2, runLoop_append_of_none c f (pre ++ a :: mid) [b] _ hx, runLoop_singleton,
      step_attach_mem c f _ b hbt hmem]
    cases ho : runLoop c f (initState g) (pre ++ a :: mid) with
    | mk st eff rt =>
      rw [ho] at hx
      simp only at hx
      simp [hx]
  · intro hno
    have hu : u ∉ (runLoop c f (initState g) pre).state.containers :=
      runLoop_not_mem_of_no_attach c f u pre (initState g) (by simp [initState]) hno
    exact runLoop_attach_registers c f (initState g) pre a u hpre hu ht hc
  · intro pre0 x gap hpre0 hx hgap
    simp only [isFinalExitOf, Bool.and_eq_true, beq_iff_eq, Bool.not_eq_true'] at hx
    obtain ⟨⟨hxt, hxc⟩, hxr⟩ := hx
    have hsplit3 : pre0 ++ x :: gap = (pre0 ++ [x]) ++ gap := by simp
    have h1 : (runLoop c f (initState g) (pre0 ++ [x])).ret = none := by
      rw [hpre0, hsplit3] at hpre
      exact runLoop_ret_none_of_append c f _ _ gap hpre
    have h0 : (runLoop c f (initState g) pre0).ret = none :=
      runLoop_ret_none_of_append c f _ _ [x] h1
    have hout : u ∉ (runLoop c f (initState g) (pre0 ++ [x])).state.containers := by
      rw [runLoop_append_of_none c f pre0 [x] _ h0, runLoop_singleton, step_exit c f _ x hxt,
        stepExit_containers]
      simp [afterRemoval, hxr, hxc]
    have hu : u ∉ (runLoop c f (initState g) pre).state.containers := by
      rw [hpre0, hsplit3, runLoop_append_of_none c f (pre0 ++ [x]) gap _ h1]
      exact runLoop_not_mem_of_no_attach c f u gap _ hout hgap
    exact runLoop_attach_registers c f (initState g) pre a u hpre hu ht hc
  · have hcount := runLoop_register_count_le c f u events (initState g)
    unfold Run
    simp only [initState, Finset.not_mem_empty, if_false] at hcount ⊢
    exact hcount

/-- In the run `attachAgainTwice`, `A` exits while `B` is registered and is
then attached twice: the first of the two Attach events makes the second
`Register` call of `A`, the second of them makes none.  In the run
`attachThrice` a log line, an Attach event and a restarting exit of `A` follow
its first Attach event, and the last Attach event of `A` makes no call. -/
theorem C9_witness_attach_again_twice :
    processed false (fun _ => none) (initState "") attachAgainTwice =
        [attachEvent "A" "web", attachEvent "B" "db", exitEvent "A" "web" 0 false] ++
          attachEvent "A" "web" :: ([] ++ [attachEvent "A" "web"]) ∧
      (Run false "" (fun _ => none) attachAgainTwice).effects.filter
          (fun x => !x.isStatusOrLog) =
        [Effect.Register "A", Effect.Register "B", Effect.Register "A"] ∧
      Run false "" (fun _ => none)
          ([attachEvent "A" "web", attachEvent "B" "db", exitEvent "A" "web" 0 false] ++
            attachEvent "A" "web" :: ([] ++ [attachEvent "A" "web"])) =
        Run false "" (fun _ => none)
          ([attachEvent "A" "web", attachEvent "B" "db", exitEvent "A" "web" 0 false] ++
            attachEvent "A" "web" :: []) ∧
      (Run false "" (fun _ => none) attachThrice).effects.count (Effect.Register "A") = 1 ∧
      Run false "" (fun _ => none)
          ([] ++ attachEvent "A" "web" ::
            ([logEvent "A" "web" "hello", attachEvent "A" "web", exitEvent "A" "web" 1 true] ++
              [attachEvent "A" "web"])) =
        Run false "" (fun _ => none)
          ([] ++ attachEvent "A" "web" ::
            [logEvent "A" "web" "hello", attachEvent "A" "web", exitEvent "A" "web" 1 true]) :=
  ⟨by decide, by decide,
    (C9_register_once_per_registration false "" (fun _ => none) attachAgainTwice "A"
      [attachEvent "A" "web", attachEvent "B" "db", exitEvent "A" "web" 0 false]
      (attachEvent "A" "web") [] [attachEvent "A" "web"] (by decide) rfl rfl
      (by simp)).2.1 (attachEvent "A" "web") [] rfl rfl rfl,
    by decide,
    (C9_register_once_per_registration false "" (fun _ => none) attachThrice "A" []
      (attachEvent "A" "web")
      [logEvent "A" "web" "hello", attachEvent "A" "web", exitEvent "A" "web" 1 true]
      [attachEvent "A" "web"] (by decide) rfl rfl (by decide)).2.1
      (attachEvent "A" "web") [] rfl rfl rfl⟩

/-- C10: an Exit event with `Restarting = false` leaves the registered set
without its container, one with `Restarting = true` leaves the set as it was,
and in both cases every other container is registered after the event exactly
when it was before; this whatever the configuration and the other variables. -/
theorem C10_exit_removes_unless_restarting (c : Bool) (f : Nat → Option GoError) (s : State)
    (e : ContainerEvent) (ht : e.Type_ = EventType.ContainerEventExit) :
    (e.Restarting = false →
        (step c f s e).state.containers = s.containers.erase e.Container) ∧
      (e.Restarting = true → (step c f s e).state.containers = s.containers) ∧
      ∀ u, u ≠ e.Container → (u ∈ (step c f s e).state.containers ↔ u ∈ s.containers) := by
  rw [step_exit c f s e ht, stepExit_containers]
  unfold afterRemoval
  refine ⟨?_, ?_, ?_⟩
  · intro hr; simp [hr]
  · intro hr; simp [hr]
  · intro u hu
    by_cases hr : e.Restarting = true <;> simp [hr, hu]

/-- From `twoRegistered`, the exit of `A` leaves `B`, with cascade stop and a
failing `stopFn` too. -/
theorem C10_witness_exit_of_A :
    (exitEvent "A" "web" 2 false).Type_ = EventType.ContainerEventExit ∧
      (step true (fun _ => some "stop failed") twoRegistered
        (exitEvent "A" "web" 2 false)).state.containers = {"B"} ∧
      (step true (fun _ => some "stop failed") twoRegistered
        (exitEvent "A" "web" 2 true)).state.containers = {"A", "B"} ∧
      (((exitEvent "A" "web" 2 false).Restarting = false →
          (step true (fun _ => some "stop failed") twoRegistered
            (exitEvent "A" "web" 2 false)).state.containers =
            twoRegistered.containers.erase (exitEvent "A" "web" 2 false).Container) ∧
        ((exitEvent "A" "web" 2 false).Restarting = true →
          (step true (fun _ => some "stop failed") twoRegistered
            (exitEvent "A" "web" 2 false)).state.containers = twoRegistered.containers) ∧
        ∀ u, u ≠ (exitEvent "A" "web" 2 false).Container →
          (u ∈ (step true (fun _ => some "stop failed") twoRegistered
            (exitEvent "A" "web" 2 false)).state.containers ↔ u ∈ twoRegistered.containers)) :=
  ⟨rfl, by decide, by decide,
    C10_exit_removes_unless_restarting true (fun _ => some "stop failed") twoRegistered
      (exitEvent "A" "web" 2 false) rfl⟩

/-! ## UserCancel, Log, and the two monotone variables -/

theorem runLoop_aborting_mono (c : Bool) (f : Nat → Option GoError) :
    ∀ (events : List ContainerEvent) (s : State), s.aborting = true →
      (runLoop c f s events).state.aborting = true := by
  intro events
  induction events with
  | nil => intro s h; simpa [runLoop] using h
  | cons e rest ih =>
    intro s h
    have h1 := step_aborting_mono c f s e h
    cases hr : (step c f s e).ret with
    | some r1 => rw [runLoop_cons_ret c f s e _ r1 hr]; exact h1
    | none => rw [runLoop_cons_none c f s e _ hr]; exact ih _ h1

/-- One iteration either keeps `exitCodeFrom` or, at an Exit event with cascade
stop while it is empty, sets it to the `Service` of the event. -/
theorem step_exitCodeFrom (c : Bool) (f : Nat → Option GoError) (s : State)
    (e : ContainerEvent) :
    (step c f s e).state.exitCodeFrom = s.exitCodeFrom ∨
      (s.exitCodeFrom = "" ∧ e.Type_ = EventType.ContainerEventExit ∧ c = true ∧
        (step c f s e).state.exitCodeFrom = e.Service) := by
  by_cases ht : e.Type_ = EventType.ContainerEventExit
  · rw [step_exit c f s e ht]
    rcases stepExit_cases c f s e with ⟨hc, h⟩ | ⟨hc, ha, err, hf, h⟩ | ⟨hc, ha, hf, h⟩ |
      ⟨hc, ha, h⟩
    · rw [h]; exact Or.inl rfl
    · rw [h]; exact Or.inl rfl
    · rw [h]
      by_cases hs : s.exitCodeFrom = ""
      · exact Or.inr ⟨hs, ht, hc, by simp [sourceAfter, hs]⟩
      · exact Or.inl (by simp [sourceAfter, hs])
    · rw [h]
      by_cases hs : s.exitCodeFrom = ""
      · exact Or.inr ⟨hs, ht, hc, by simp [sourceAfter, hs]⟩
      · exact Or.inl (by simp [sourceAfter, hs])
  · rcases step_cases_not_exit c f s e ht with ⟨_, h⟩ | ⟨_, _, h⟩ | ⟨_, _, h⟩ | ⟨_, h⟩ <;>
      rw [h] <;> exact Or.inl rfl

theorem runLoop_exitCodeFrom_fixed (c : Bool) (f : Nat → Option GoError) :
    ∀ (events : List ContainerEvent) (s : State), s.exitCodeFrom ≠ "" →
      (runLoop c f s events).state.exitCodeFrom = s.exitCodeFrom := by
  intro events
  induction events with
  | nil => intro s _; simp [runLoop]
  | cons e rest ih =>
    intro s hs
    have h1 : (step c f s e).state.exitCodeFrom = s.exitCodeFrom := by
      rcases step_exitCodeFrom c f s e with h | ⟨h, _⟩
      · exact h
      · exact absurd h hs
    cases hr : (step c f s e).ret with
    | some r1 => rw [runLoop_cons_ret c f s e _ r1 hr]; exact h1
    | none =>
      rw [runLoop_cons_none c f s e _ hr]
      simp only
      rw [ih _ (by rw [h1]; exact hs), h1]

/-- C11: a UserCancel event, and so the event `Cancel` submits, sets `aborting`
and changes nothing else: the registered set, `exitCodeFrom`, `exitCode` and
the number of `stopFn` calls stay, no call is made, and `Run` does not return,
also when the registered set is empty and also as the next event of a run. -/
theorem C11_user_cancel_only_sets_aborting :
    (∀ (c : Bool) (f : Nat → Option GoError) (s : State) (e : ContainerEvent),
        e.Type_ = EventType.UserCancel →
          step c f s e =
            ⟨⟨s.containers, true, s.exitCodeFrom, s.exitCode, s.stopCalls⟩, [], none⟩) ∧
      (∀ (c : Bool) (f : Nat → Option GoError) (s : State),
        step c f s cancelEvent =
          ⟨⟨s.containers, true, s.exitCodeFrom, s.exitCode, s.stopCalls⟩, [], none⟩) ∧
      (∀ (c : Bool) (f : Nat → Option GoError) (s : State), s.containers = ∅ →
        (step c f s cancelEvent).ret = none ∧ (step c f s cancelEvent).state.containers = ∅) ∧
      (∀ (c : Bool) (g : String) (f : Nat → Option GoError) (pre : List ContainerEvent),
        (Run c g f pre).ret = none →
          Run c g f (pre ++ [cancelEvent]) =
            ⟨⟨(Run c g f pre).state.containers, true, (Run c g f pre).state.exitCodeFrom,
                (Run c g f pre).state.exitCode, (Run c g f pre).state.stopCalls⟩,
              (Run c g f pre).effects, none⟩) := by
  have h1 : ∀ (c : Bool) (f : Nat → Option GoError) (s : State) (e : ContainerEvent),
      e.Type_ = EventType.UserCancel →
        step c f s e =
          ⟨⟨s.containers, true, s.exitCodeFrom, s.exitCode, s.stopCalls⟩, [], none⟩ :=
    fun c f s e ht => step_cancel c f s e ht
  refine ⟨h1, fun c f s => h1 c f s cancelEvent rfl, ?_, ?_⟩
  · intro c f s hs
    rw [h1 c f s cancelEvent rfl]
    exact ⟨rfl, hs⟩
  · intro c g f pre hpre
    unfold Run at hpre ⊢
    rw [runLoop_append_of_none c f pre [cancelEvent] _ hpre, runLoop_singleton,
      h1 c f _ cancelEvent rfl]
    simp

/-- C12: for a Log event, when `aborting` is false the one call
`Log(Container, Service, Line)` is made, and when `aborting` is true no call is
made; in both cases the variables are unchanged and `Run` does not return.  The
registered set plays no part: this holds for all variables `s`. -/
theorem C12_log_forwarded_unless_aborting (c : Bool) (f : Nat → Option GoError) (s : State)
    (e : ContainerEvent) (ht : e.Type_ = EventType.ContainerEventLog) :
    (s.aborting = false →
        step c f s e = ⟨s, [Effect.Log e.Container e.Service e.Line], none⟩) ∧
      (s.aborting = true → step c f s e = ⟨s, [], none⟩) := by
  rw [step_log c f s e ht]
  constructor <;> intro ha <;> simp [ha]

/-- A log line of `A` received when `A` is not registered is forwarded. -/
theorem C12_witness_log_of_unregistered :
    (logEvent "A" "web" "hello").Type_ = EventType.ContainerEventLog ∧
      "A" ∉ (initState "").containers ∧
      step true (fun _ => none) (initState "") (logEvent "A" "web" "hello") =
        ⟨initState "", [Effect.Log "A" "web" "hello"], none⟩ ∧
      (((initState "").aborting = false →
          step true (fun _ => none) (initState "") (logEvent "A" "web" "hello") =
            ⟨initState "", [Effect.Log (logEvent "A" "web" "hello").Container
              (logEvent "A" "web" "hello").Service (logEvent "A" "web" "hello").Line], none⟩) ∧
        ((initState "").aborting = true →
          step true (fun _ => none) (initState "") (logEvent "A" "web" "hello") =
            ⟨initState "", [], none⟩)) :=
  ⟨rfl, by decide, by decide,
    C12_log_forwarded_unless_aborting true (fun _ => none) (initState "")
      (logEvent "A" "web" "hello") rfl⟩

/-- C14: `Run` starts with `aborting` false, and once `aborting` is true it is
true after every event, for one iteration, for the loop on any events, and
between any two points of a run: it only ever changes from false to true. -/
theorem C14_aborting_monotone :
    (∀ g : String, (initState g).aborting = false) ∧
      (∀ (c : Bool) (f : Nat → Option GoError) (s : State) (e : ContainerEvent),
        s.aborting = true → (step c f s e).state.aborting = true) ∧
      (∀ (c : Bool) (f : Nat → Option GoError) (s : State) (events : List ContainerEvent),
        s.aborting = true → (runLoop c f s events).state.aborting = true) ∧
      (∀ (c : Bool) (g : String) (f : Nat → Option GoError) (pre post : List ContainerEvent),
        (Run c g f pre).state.aborting = true →
          (Run c g f (pre ++ post)).state.aborting = true) := by
  refine ⟨fun _ => rfl, step_aborting_mono, fun c f s events h =>
    runLoop_aborting_mono c f events s h, ?_⟩
  intro c g f pre post h
  unfold Run at h ⊢
  cases hr : (runLoop c f (initState g) pre).ret with
  | some r1 => rw [runLoop_append_of_ret c f pre post _ r1 hr]; exact h
  | none =>
    rw [runLoop_append_of_none c f pre post _ hr]
    exact runLoop_aborting_mono c f post _ h

/-- C15: a non-empty `exitCodeFrom` has the same value after every event, for
one iteration and for the loop on any events; when one iteration changes
`exitCodeFrom`, it was empty, the event is an Exit event, `cascadeStop` is true
and the new value is the `Service` of the event. -/
theorem C15_exitCodeFrom_assigned_once :
    (∀ (c : Bool) (f : Nat → Option GoError) (s : State) (e : ContainerEvent),
        s.exitCodeFrom ≠ "" → (step c f s e).state.exitCodeFrom = s.exitCodeFrom) ∧
      (∀ (c : Bool) (f : Nat → Option GoError) (s : State) (events : List ContainerEvent),
        s.exitCodeFrom ≠ "" → (runLoop c f s events).state.exitCodeFrom = s.exitCodeFrom) ∧
      (∀ (c : Bool) (f : Nat → Option GoError) (s : State) (e : ContainerEvent),
        (step c f s e).state.exitCodeFrom ≠ s.exitCodeFrom →
          s.exitCodeFrom = "" ∧ e.Type_ = EventType.ContainerEventExit ∧ c = true ∧
            (step c f s e).state.exitCodeFrom = e.Service) := by
  refine ⟨?_, fun c f s events h => runLoop_exitCodeFrom_fixed c f events s h, ?_⟩
  · intro c f s e hs
    rcases step_exitCodeFrom c f s e with h | ⟨h, _⟩
    · exact h
    · exact absurd h hs
  · intro c f s e hne
    rcases step_exitCodeFrom c f s e with h | h
    · exact absurd h hne
    · exact h

/-! ## The calls on the consumer without cascade stop -/

/-- Without cascade stop and without UserCancel, one iteration makes the calls
the specification words, and the loop stays not aborting. -/
theorem step_sink_image (f : Nat → Option GoError) (s : State) (e : ContainerEvent)
    (rest : List ContainerEvent) (ha : s.aborting = false)
    (hu : e.Type_ ≠ EventType.UserCancel) :
    (step false f s e).state.aborting = false ∧
      specSinkCalls s.containers (e :: rest) =
        (step false f s e).effects ++ specSinkCalls (step false f s e).state.containers rest := by
  by_cases ht : e.Type_ = EventType.ContainerEventExit
  · rw [step_exit false f s e ht, stepExit_plain]
    cases hr : e.Restarting <;>
      simp [specSinkCalls, ht, ha, hr, afterRemoval, statusText]
  · rcases step_cases_not_exit false f s e ht with ⟨ht1, h⟩ | ⟨ht1, hm, h⟩ | ⟨ht1, hm, h⟩ |
      ⟨ht1, h⟩
    · exact absurd ht1 hu
    · rw [h]; simp [specSinkCalls, ht1, hm, ha]
    · rw [h]; simp [specSinkCalls, ht1, hm, ha]
    · rw [h]; simp [specSinkCalls, ht1, ha]

/-- Without cascade stop and without UserCancel among the processed events,
the effects of the loop are the calls the specification words. -/
theorem runLoop_sink_image (f : Nat → Option GoError) :
    ∀ (events : List ContainerEvent) (s : State), s.aborting = false →
      (∀ e ∈ processed false f s events, e.Type_ ≠ EventType.UserCancel) →
      (runLoop false f s events).effects =
        specSinkCalls s.containers (processed false f s events) := by
  intro events
  induction events with
  | nil => intro s _ _; simp [runLoop, processed, specSinkCalls]
  | cons e rest ih =>
    intro s ha h
    cases hr : (step false f s e).ret with
    | some r1 =>
      rw [processed_cons_ret false f s e _ r1 hr] at h ⊢
      obtain ⟨_, h2⟩ := step_sink_image f s e [] ha (h e (List.mem_singleton.2 rfl))
      rw [runLoop_cons_ret false f s e _ r1 hr, h2]
      simp [specSinkCalls]
    | none =>
      rw [processed_cons_none false f s e _ hr] at h ⊢
      obtain ⟨h1, h2⟩ := step_sink_image f s e
        (processed false f (step false f s e).state rest) ha (h e (List.mem_cons_self _ _))
      rw [runLoop_cons_none false f s e _ hr, h2,
        ih _ h1 (fun x hx => h x (List.mem_cons_of_mem _ hx))]

/-- The specification's calls have one `Log` call for each Log event and one
`Status` call for each Exit event. -/
theorem specSinkCalls_counts :
    ∀ (events : List ContainerEvent) (reg : Finset String),
      (specSinkCalls reg events).countP Effect.isLog =
          events.countP (fun e => e.Type_ == EventType.ContainerEventLog) ∧
        (specSinkCalls reg events).countP Effect.isStatus =
          events.countP (fun e => e.Type_ == EventType.ContainerEventExit) := by
  intro events
  induction events with
  | nil => intro reg; simp [specSinkCalls]
  | cons e rest ih =>
    intro reg
    cases ht : e.Type_ with
    | UserCancel =>
      obtain ⟨i1, i2⟩ := ih reg
      simp [specSinkCalls, ht, List.countP_cons, i1, i2]
    | ContainerEventAttach =>
      by_cases hm : e.Container ∈ reg
      · obtain ⟨i1, i2⟩ := ih reg
        simp [specSinkCalls, ht, hm, List.countP_cons, i1, i2]
      · obtain ⟨i1, i2⟩ := ih (insert e.Container reg)
        simp [specSinkCalls, ht, hm, List.countP_cons, i1, i2, Effect.isLog, Effect.isStatus]
    | ContainerEventLog =>
      obtain ⟨i1, i2⟩ := ih reg
      simp [specSinkCalls, ht, List.countP_cons, i1, i2, Effect.isLog, Effect.isStatus]
    | ContainerEventExit =>
      obtain ⟨i1, i2⟩ := ih (if e.Restarting then reg else reg.erase e.Container)
      simp [specSinkCalls, ht, List.countP_cons, i1, i2, Effect.isLog, Effect.isStatus]

/-- C13: with `cascadeStop = false`, when no UserCancel event is among the
processed events, the effects of `Run` are exactly the calls on the consumer
the specification words for the processed events, in order; so there are as
many `Log` calls as Log events and as many `Status` calls as Exit events, and
`Run` has either not returned or returned `(0, nil)`. -/
theorem C13_sink_calls_are_image_of_events (g : String) (f : Nat → Option GoError)
    (events : List ContainerEvent)
    (h : ∀ e ∈ processed false f (initState g) events, e.Type_ ≠ EventType.UserCancel) :
    (Run false g f events).effects =
        specSinkCalls ∅ (processed false f (initState g) events) ∧
      (Run false g f events).effects.countP Effect.isLog =
        (processed false f (initState g) events).countP
          (fun e => e.Type_ == EventType.ContainerEventLog) ∧
      (Run false g f events).effects.countP Effect.isStatus =
        (processed false f (initState g) events).countP
          (fun e => e.Type_ == EventType.ContainerEventExit) ∧
      ((Run false g f events).ret = none ∨ (Run false g f events).ret = some (0, none)) := by
  have h1 : (Run false g f events).effects =
      specSinkCalls ∅ (processed false f (initState g) events) :=
    runLoop_sink_image f events (initState g) rfl h
  obtain ⟨c1, c2⟩ := specSinkCalls_counts (processed false f (initState g) events) ∅
  refine ⟨h1, by rw [h1, c1], by rw [h1, c2], ?_⟩
  exact (runLoop_plain f events (initState g)).2.2.2

/-- The scenario of the spec: the line is forwarded once, the status once, and
the run returns `(0, nil)`. -/
theorem C13_witness_hello_then_exit :
    (Run false "" (fun _ => none) helloThenExit).ret = some (0, none) ∧
      (Run false "" (fun _ => none) helloThenExit).effects =
        [Effect.Register "A", Effect.Log "A" "web" "hello",
          Effect.Status "A" "exited with code 0"] ∧
      ((Run false "" (fun _ => none) helloThenExit).effects =
          specSinkCalls ∅ (processed false (fun _ => none) (initState "") helloThenExit) ∧
        (Run false "" (fun _ => none) helloThenExit).effects.countP Effect.isLog =
          (processed false (fun _ => none) (initState "") helloThenExit).countP
            (fun e => e.Type_ == EventType.ContainerEventLog) ∧
        (Run false "" (fun _ => none) helloThenExit).effects.countP Effect.isStatus =
          (processed false (fun _ => none) (initState "") helloThenExit).countP
            (fun e => e.Type_ == EventType.ContainerEventExit) ∧
        ((Run false "" (fun _ => none) helloThenExit).ret = none ∨
          (Run false "" (fun _ => none) helloThenExit).ret = some (0, none))) :=
  ⟨by decide, by decide,
    C13_sink_calls_are_image_of_events "" (fun _ => none) helloThenExit (by decide)⟩

/-! ## The Exit branch: what it depends on -/

/-- The Exit branch compares `exitCodeFrom` with the `Service` of the event
under cascade stop, unless the `stopFn` call fails; `logrus.Error` marks the
comparison that holds. -/
theorem step_logrus_mem_iff (c : Bool) (f : Nat → Option GoError) (s : State)
    (e : ContainerEvent) (x : Int) :
    Effect.LogrusError x ∈ (step c f s e).effects ↔
      e.Type_ = EventType.ContainerEventExit ∧ c = true ∧
        (s.aborting = true ∨ f s.stopCalls = none) ∧ sourceAfter s e = e.Service ∧
        x = e.ExitCode := by
  by_cases ht : e.Type_ = EventType.ContainerEventExit
  · rw [step_exit c f s e ht]
    rcases stepExit_cases c f s e with ⟨hc, h⟩ | ⟨hc, ha, err, hf, h⟩ | ⟨hc, ha, hf, h⟩ |
      ⟨hc, ha, h⟩
    · rw [h]; cases ha : s.aborting <;> simp [hc]
    · rw [h]; simp [ha, hf]
    · rw [h]; by_cases hm : sourceAfter s e = e.Service <;> simp [ht, hc, hf, hm]
    · rw [h]; by_cases hm : sourceAfter s e = e.Service <;> simp [ht, hc, ha, hm]
  · rcases step_cases_not_exit c f s e ht with ⟨_, h⟩ | ⟨_, _, h⟩ | ⟨_, _, h⟩ | ⟨_, h⟩
    · rw [h]; simp [ht]
    · rw [h]; simp [ht]
    · rw [h]; simp [ht]
    · rw [h]; cases ha : s.aborting <;> simp [ht]

/-- An iteration in which the comparison does not hold keeps the code, and
returns 0 or the code. -/
theorem step_unmatched (c : Bool) (f : Nat → Option GoError) (s : State) (e : ContainerEvent)
    (h : ∀ x, Effect.LogrusError x ∉ (step c f s e).effects) :
    (step c f s e).state.exitCode = s.exitCode ∧
      ∀ code err, (step c f s e).ret = some (code, err) → code = 0 ∨ code = s.exitCode := by
  by_cases ht : e.Type_ = EventType.ContainerEventExit
  · have hm : ¬ (c = true ∧ (s.aborting = true ∨ f s.stopCalls = none) ∧
        sourceAfter s e = e.Service) := by
      intro hx
      exact h e.ExitCode ((step_logrus_mem_iff c f s e e.ExitCode).2 ⟨ht, hx.1, hx.2.1, hx.2.2, rfl⟩)
    rw [step_exit c f s e ht]
    rcases stepExit_cases c f s e with ⟨hc, h1⟩ | ⟨hc, ha, err, hf, h1⟩ | ⟨hc, ha, hf, h1⟩ |
      ⟨hc, ha, h1⟩
    · rw [h1]
      refine ⟨rfl, ?_⟩
      intro code err hr
      by_cases he : afterRemoval s e = ∅ <;> simp [he] at hr
      exact Or.inr hr.1.symm
    · rw [h1]
      refine ⟨rfl, ?_⟩
      intro code err hr
      simp at hr
      exact Or.inl hr.1.symm
    · have hne : ¬ sourceAfter s e = e.Service := fun hx => hm ⟨hc, Or.inr hf, hx⟩
      have hcode : codeAfter s e = s.exitCode := by simp [codeAfter, hne]
      rw [h1]
      refine ⟨hcode, ?_⟩
      intro code err hr
      by_cases he : afterRemoval s e = ∅ <;> simp [he] at hr
      exact Or.inr (by rw [← hr.1, hcode])
    · have hne : ¬ sourceAfter s e = e.Service := fun hx => hm ⟨hc, Or.inl ha, hx⟩
      have hcode : codeAfter s e = s.exitCode := by simp [codeAfter, hne]
      rw [h1]
      refine ⟨hcode, ?_⟩
      intro code err hr
      by_cases he : afterRemoval s e = ∅ <;> simp [he] at hr
      exact Or.inr (by rw [← hr.1, hcode])
  · have hr := step_ret_none_of_not_exit c f s e ht
    refine ⟨?_, by intro code err hx; rw [hr] at hx; simp at hx⟩
    rcases step_cases_not_exit c f s e ht with ⟨_, h1⟩ | ⟨_, _, h1⟩ | ⟨_, _, h1⟩ | ⟨_, h1⟩ <;>
      rw [h1]

theorem runLoop_unmatched (c : Bool) (f : Nat → Option GoError) :
    ∀ (events : List ContainerEvent) (s : State), s.exitCode = 0 →
      (∀ x, Effect.LogrusError x ∉ (runLoop c f s events).effects) →
      (runLoop c f s events).state.exitCode = 0 ∧
        ∀ code err, (runLoop c f s events).ret = some (code, err) → code = 0 := by
  intro events
  induction events with
  | nil => intro s hs _; simp [runLoop, hs]
  | cons e rest ih =>
    intro s hs h
    cases hr : (step c f s e).ret with
    | some r1 =>
      rw [runLoop_cons_ret c f s e _ r1 hr] at h ⊢
      obtain ⟨h1, h2⟩ := step_unmatched c f s e h
      refine ⟨by rw [h1, hs], ?_⟩
      intro code err hx
      simp only [Option.some.injEq] at hx
      rw [hx] at hr
      rcases h2 code err hr with h0 | h0
      · exact h0
      · rw [h0, hs]
    | none =>
      rw [runLoop_cons_none c f s e _ hr] at h ⊢
      simp only [List.mem_append, not_or] at h
      obtain ⟨h1, _⟩ := step_unmatched c f s e (fun x => (h x).1)
      exact ih _ (by rw [h1, hs]) (fun x => (h x).2)

theorem lastExitCodeOf_eq_none (g : String) (events : List ContainerEvent)
    (h : ∀ e ∈ events, e.Type_ = EventType.ContainerEventExit → e.Service ≠ g) :
    lastExitCodeOf g events = none := by
  have hnil : events.filter (isExitOf g) = [] := by
    rw [List.filter_eq_nil_iff]
    intro e he hx
    simp only [isExitOf, Bool.and_eq_true, beq_iff_eq] at hx
    exact h e he hx.1 hx.2
  simp [lastExitCodeOf, hnil]

/-- C16: at an Exit event on which `stopFn` does not fail and after whose
removal step the registered set is empty, `Run` returns the accumulated
`exitCode`, with the update of this same event, and a nil error.  The returned
code is 0 when `cascadeStop` is false, when the comparison of `exitCodeFrom`
with the `Service` of the event (marked by `logrus.Error`) never held for a
processed Exit event, and so when a non-empty `exitCodeFrom` is the `Service`
of no processed Exit event. -/
theorem C16_returns_accumulated_code :
    (∀ (c : Bool) (f : Nat → Option GoError) (s : State) (e : ContainerEvent),
        e.Type_ = EventType.ContainerEventExit → afterRemoval s e = ∅ →
        (c = true → s.aborting = false → f s.stopCalls = none) →
          (step c f s e).ret = some ((step c f s e).state.exitCode, none) ∧
            (step c f s e).state.exitCode = (if c = true then codeAfter s e else s.exitCode)) ∧
      (∀ (g : String) (f : Nat → Option GoError) (events : List ContainerEvent)
          (code : Int) (err : Option GoError),
        (Run false g f events).ret = some (code, err) → code = 0 ∧ err = none) ∧
      (∀ (c : Bool) (f : Nat → Option GoError) (s : State) (e : ContainerEvent) (x : Int),
        Effect.LogrusError x ∈ (step c f s e).effects ↔
          e.Type_ = EventType.ContainerEventExit ∧ c = true ∧
            (s.aborting = true ∨ f s.stopCalls = none) ∧ sourceAfter s e = e.Service ∧
            x = e.ExitCode) ∧
      (∀ (c : Bool) (g : String) (f : Nat → Option GoError) (events : List ContainerEvent),
        (∀ x, Effect.LogrusError x ∉ (Run c g f events).effects) →
          (Run c g f events).state.exitCode = 0 ∧
            ∀ code err, (Run c g f events).ret = some (code, err) → code = 0) ∧
      (∀ (g : String) (f : Nat → Option GoError) (events : List ContainerEvent),
        g ≠ "" → (∀ n, f n = none) →
        (∀ e ∈ processed true f (initState g) events,
          e.Type_ = EventType.ContainerEventExit → e.Service ≠ g) →
          (Run true g f events).state.exitCode = 0 ∧
            ∀ code err, (Run true g f events).ret = some (code, err) →
              code = 0 ∧ err = none) := by
  refine ⟨?_, ?_, step_logrus_mem_iff, ?_, ?_⟩
  · intro c f s e ht hempty hstop
    rw [step_exit c f s e ht]
    rcases stepExit_cases c f s e with ⟨hc, h⟩ | ⟨hc, ha, err, hf, h⟩ | ⟨hc, ha, hf, h⟩ |
      ⟨hc, ha, h⟩
    · rw [h]; simp [hc, hempty]
    · rw [hstop hc ha] at hf; simp at hf
    · rw [h]; simp [hc, hempty]
    · rw [h]; simp [hc, hempty]
  · intro g f events code err hret
    rcases (runLoop_plain f events (initState g)).2.2.2 with h | h
    · unfold Run at hret; rw [h] at hret; simp at hret
    · unfold Run at hret
      rw [h] at hret
      simp only [Option.some.injEq, Prod.mk.injEq] at hret
      exact ⟨hret.1.symm, hret.2.symm⟩
  · intro c g f events h
    exact runLoop_unmatched c f events (initState g) rfl h
  · intro g f events hg hf h
    obtain ⟨_, h2⟩ := runLoop_fixed_source f hf g hg events (initState g) rfl
    have h0 : (Run true g f events).state.exitCode = 0 := by
      unfold Run
      rw [h2, lastExitCodeOf_eq_none g _ h]
      rfl
    refine ⟨h0, ?_⟩
    intro code err hret
    have h3 := runLoop_ret_code true f hf events (initState g) _ hret
    simp only [Prod.mk.injEq] at h3
    exact ⟨by rw [h3.1]; exact h0, h3.2⟩

/-- The Exit branch reads the flag `Restarting` for the removal step only. -/
theorem stepExit_restarting_irrelevant (c : Bool) (f : Nat → Option GoError) (s : State)
    (e : ContainerEvent) (b : Bool) :
    (stepExit c f s { e with Restarting := b }).effects = (stepExit c f s e).effects ∧
      (stepExit c f s { e with Restarting := b }).state.aborting =
        (stepExit c f s e).state.aborting ∧
      (stepExit c f s { e with Restarting := b }).state.exitCodeFrom =
        (stepExit c f s e).state.exitCodeFrom ∧
      (stepExit c f s { e with Restarting := b }).state.exitCode =
        (stepExit c f s e).state.exitCode ∧
      (stepExit c f s { e with Restarting := b }).state.stopCalls =
        (stepExit c f s e).state.stopCalls := by
  cases c with
  | false => rw [stepExit_plain, stepExit_plain]; simp
  | true =>
    cases ha : s.aborting with
    | true =>
      rw [stepExit_aborting f s _ ha, stepExit_aborting f s e ha]
      simp [sourceAfter, codeAfter]
    | false =>
      cases hf : f s.stopCalls with
      | some err =>
        rw [stepExit_fail f s _ err ha hf, stepExit_fail f s e err ha hf]
        simp
      | none =>
        rw [stepExit_trigger f s _ ha hf, stepExit_trigger f s e ha hf]
        simp [sourceAfter, codeAfter]

/-- The Exit branch reads the registered set for the removal step and the
termination check only. -/
theorem stepExit_containers_irrelevant (c : Bool) (f : Nat → Option GoError) (s : State)
    (t : Finset String) (e : ContainerEvent) :
    (stepExit c f { s with containers := t } e).effects = (stepExit c f s e).effects ∧
      (stepExit c f { s with containers := t } e).state.aborting =
        (stepExit c f s e).state.aborting ∧
      (stepExit c f { s with containers := t } e).state.exitCodeFrom =
        (stepExit c f s e).state.exitCodeFrom ∧
      (stepExit c f { s with containers := t } e).state.exitCode =
        (stepExit c f s e).state.exitCode ∧
      (stepExit c f { s with containers := t } e).state.stopCalls =
        (stepExit c f s e).state.stopCalls := by
  cases c with
  | false => rw [stepExit_plain, stepExit_plain]; simp
  | true =>
    rcases Bool.eq_false_or_eq_true s.aborting with ha | ha
    · rw [stepExit_aborting f { s with containers := t } e ha, stepExit_aborting f s e ha]
      simp [sourceAfter, codeAfter]
    · cases hf : f s.stopCalls with
      | some err =>
        rw [stepExit_fail f { s with containers := t } e err ha hf,
          stepExit_fail f s e err ha hf]
        simp
      | none =>
        rw [stepExit_trigger f { s with containers := t } e ha hf,
          stepExit_trigger f s e ha hf]
        simp [sourceAfter, codeAfter]

/-- C18: with `cascadeStop = true` and `aborting` false, an Exit event triggers
the cascade stop whatever its flag `Restarting`: `stopFn` is invoked once,
`aborting` is set, and the effects, `aborting`, `exitCodeFrom`, `exitCode` and
the number of `stopFn` calls after the event are those of the same event with
the other value of the flag.  When `stopFn` succeeds the source is chosen if it
was empty and the code is taken from the event if the source is its `Service`;
when `stopFn` fails `(0, err)` is returned.  A restarting container stays in
the registered set. -/
theorem C18_restarting_exit_triggers_cascade (f : Nat → Option GoError) (s : State)
    (e : ContainerEvent) (ht : e.Type_ = EventType.ContainerEventExit)
    (ha : s.aborting = false) :
    (∀ b : Bool,
        (step true f s { e with Restarting := b }).effects = (step true f s e).effects ∧
          (step true f s { e with Restarting := b }).state.aborting =
            (step true f s e).state.aborting ∧
          (step true f s { e with Restarting := b }).state.exitCodeFrom =
            (step true f s e).state.exitCodeFrom ∧
          (step true f s { e with Restarting := b }).state.exitCode =
            (step true f s e).state.exitCode ∧
          (step true f s { e with Restarting := b }).state.stopCalls =
            (step true f s e).state.stopCalls) ∧
      Effect.StopFn ∈ (step true f s e).effects ∧
      (step true f s e).effects.count Effect.StopFn = 1 ∧
      (step true f s e).state.aborting = true ∧
      (step true f s e).state.stopCalls = s.stopCalls + 1 ∧
      (e.Restarting = true → (step true f s e).state.containers = s.containers) ∧
      (f s.stopCalls = none →
        (step true f s e).state.exitCodeFrom =
            (if s.exitCodeFrom = "" then e.Service else s.exitCodeFrom) ∧
          (step true f s e).state.exitCode =
            (if (step true f s e).state.exitCodeFrom = e.Service then e.ExitCode
              else s.exitCode)) ∧
      (∀ err, f s.stopCalls = some err → (step true f s e).ret = some (0, some err)) := by
  have hmem : Effect.StopFn ∈ (step true f s e).effects :=
    (step_stopFn_mem_iff true f s e).2 ⟨rfl, ht, ha⟩
  obtain ⟨hcalls, hle⟩ := step_stopCalls true f s e
  have hcount : (step true f s e).effects.count Effect.StopFn = 1 := by
    have hpos := List.count_pos_iff.2 hmem
    omega
  refine ⟨?_, hmem, hcount, step_stopFn_sets_aborting true f s e hmem, by rw [hcalls, hcount],
    ?_, ?_, ?_⟩
  · intro b
    have ht2 : ({ e with Restarting := b } : ContainerEvent).Type_ =
        EventType.ContainerEventExit := ht
    rw [step_exit true f s _ ht2, step_exit true f s e ht]
    exact stepExit_restarting_irrelevant true f s e b
  · intro hr
    rw [step_exit true f s e ht, stepExit_containers]
    simp [afterRemoval, hr]
  · intro hf
    rw [step_exit true f s e ht, stepExit_trigger f s e ha hf]
    simp [sourceAfter, codeAfter]
  · intro err hf
    exact (step_err_iff true f s e 0 err).2 ⟨ht, rfl, ha, hf, rfl⟩

/-- From `oneRegistered`, the restarting exit of `A` with code 7 calls
`stopFn`, chooses `web` and the code 7, and leaves `A` registered. -/
theorem C18_witness_restarting_exit :
    (exitEvent "A" "web" 7 true).Type_ = EventType.ContainerEventExit ∧
      oneRegistered.aborting = false ∧
      step true (fun _ => none) oneRegistered (exitEvent "A" "web" 7 true) =
        ⟨⟨{"A"}, true, "web", 7, 1⟩,
          [Effect.Status "A" "exited with code 7",
            Effect.Println "Aborting on container exit...", Effect.StopFn,
            Effect.LogrusError 7], none⟩ ∧
      Effect.StopFn ∈
        (step true (fun _ => none) oneRegistered (exitEvent "A" "web" 7 true)).effects :=
  ⟨rfl, rfl, by decide,
    (C18_restarting_exit_triggers_cascade (fun _ => none) oneRegistered
      (exitEvent "A" "web" 7 true) rfl rfl).2.1⟩

/-- C19: at an Exit event the effects (the `Status` call, the `stopFn` call),
`aborting`, `exitCodeFrom`, `exitCode` and the number of `stopFn` calls do not
depend on the registered set, and the termination check is made on the set
after the removal step whether or not the container is registered.  For a
container that is not registered the set is unchanged and the `Status` call is
made when the loop is not aborting; when the set is empty the event makes
`Run` return, also as the first event of a run. -/
theorem C19_exit_of_unregistered_container (c : Bool) (f : Nat → Option GoError) (s : State)
    (e : ContainerEvent) (ht : e.Type_ = EventType.ContainerEventExit) :
    (∀ t : Finset String,
        (step c f { s with containers := t } e).effects = (step c f s e).effects ∧
          (step c f { s with containers := t } e).state.aborting =
            (step c f s e).state.aborting ∧
          (step c f { s with containers := t } e).state.exitCodeFrom =
            (step c f s e).state.exitCodeFrom ∧
          (step c f { s with containers := t } e).state.exitCode =
            (step c f s e).state.exitCode ∧
          (step c f { s with containers := t } e).state.stopCalls =
            (step c f s e).state.stopCalls) ∧
      ((step c f s e).ret ≠ none ↔
        (afterRemoval s e = ∅ ∨ (c = true ∧ s.aborting = false ∧ f s.stopCalls ≠ none))) ∧
      (e.Container ∉ s.containers →
        (step c f s e).state.containers = s.containers ∧
          (s.aborting = false →
            Effect.Status e.Container (statusText e.ExitCode) ∈ (step c f s e).effects)) ∧
      (s.containers = ∅ → (step c f s e).ret ≠ none) ∧
      (∀ (g : String) (rest : List ContainerEvent),
        (Run c g f (e :: rest)).ret ≠ none ∧ processed c f (initState g) (e :: rest) = [e]) := by
  have hret := step_ret_iff c f s e
  have hempty : ∀ s1 : State, s1.containers = ∅ → (step c f s1 e).ret ≠ none := by
    intro s1 h1
    rw [step_ret_iff]
    refine ⟨ht, Or.inl ?_⟩
    unfold afterRemoval
    cases hr : e.Restarting <;> simp [h1]
  refine ⟨?_, ?_, ?_, hempty s, ?_⟩
  · intro t
    rw [step_exit c f _ e ht, step_exit c f s e ht]
    exact stepExit_containers_irrelevant c f s t e
  · rw [hret]
    simp [ht]
  · intro hm
    rw [step_exit c f s e ht]
    refine ⟨?_, ?_⟩
    · rw [stepExit_containers]
      unfold afterRemoval
      cases hr : e.Restarting <;> simp [hm]
    · intro ha
      rcases stepExit_cases c f s e with ⟨hc, h⟩ | ⟨hc, ha1, err, hf, h⟩ | ⟨hc, ha1, hf, h⟩ |
        ⟨hc, ha1, h⟩
      · rw [h]; simp [ha]
      · rw [h]; simp
      · rw [h]; simp
      · rw [ha] at ha1; exact absurd ha1 (by decide)
  · intro g rest
    have h0 := hempty (initState g) rfl
    cases hr : (step c f (initState g) e).ret with
    | none => exact absurd hr h0
    | some r1 =>
      unfold Run
      rw [runLoop_cons_ret c f _ e _ r1 hr, processed_cons_ret c f _ e _ r1 hr]
      simp

/-- The exit of `A`, never attached, as the first event of a run: the status is
forwarded and the run returns with the code of `A`. -/
theorem C19_witness_exit_first :
    (exitEvent "A" "web" 3 false).Type_ = EventType.ContainerEventExit ∧
      Run true "" (fun _ => none) [exitEvent "A" "web" 3 false, attachEvent "B" "db"] =
        ⟨⟨∅, true, "web", 3, 1⟩,
          [Effect.Status "A" "exited with code 3",
            Effect.Println "Aborting on container exit...", Effect.StopFn,
            Effect.LogrusError 3], some (3, none)⟩ ∧
      ((initState "").containers = ∅ →
        (step true (fun _ => none) (initState "") (exitEvent "A" "web" 3 false)).ret ≠ none) :=
  ⟨rfl, by decide,
    (C19_exit_of_unregistered_container true (fun _ => none) (initState "")
      (exitEvent "A" "web" 3 false) rfl).2.2.2.1⟩

end Compose
